import Mathlib

/-!
# Tracy: a shadow call-stack tracker

A shallow embedding of `src/src/tracy.c` and a verification of its stack and
dump-formatting behaviour.

Conventions of the embedding

* A C string is the list of its chars before the terminating NUL; one `Char`
  stands for one C `char`, so `List.length` is `strlen`.
* `struct trace_frame *` is the inductive type `trace_frame_ptr`: a pointer is
  either `NULL` or it points to a frame, which carries its own `prev` pointer.
  Frames are only ever created by `calloc` inside `__Tracy_newframe` and linked
  on top of the previous top, so no two pointers alias and the heap reachable
  from `tracelog.top` is exactly such a chain.
* Machine integers are `Nat`/`Int` with explicit reduction: `size_t` is taken
  modulo `2 ^ 64`, `uint32_t` modulo `2 ^ 32`, and `int32_t`/`int` are the
  two's-complement reading of the low 32 bits.
* An operation that dereferences `NULL` (or overflows a signed integer) has
  undefined behaviour; such an operation returns `none`.
* The functions on the stack and the dump buffer are the bodies of the
  critical sections: what the code does to `tracelog` and to the dump buffer
  between the mutex calls. The mutex calls themselves are embedded in the
  section on the mutex, and the section on whole calls puts the two together
  for `Tracy_push` and `Tracy_pop`.
-/

namespace Tracy

/-! ## Constants (tracy.c, lines 21-23 and 237) -/

/-- Size of `func_name` in `struct trace_frame`. -/
def TEST_NAME_BUFFSZ : Nat := 300

/-- Size of `source_file` in `struct trace_frame`. -/
def SRCF_NAME_BUFFSZ : Nat := 300

/-- Size of the file-scoped `PROG_NAME` buffer. -/
def PROG_NAME_BUFFSZ : Nat := 129

/-- Size of `buff` and of `tmpbuff` in `Tracy_dump`: `sizeof(buff)`. -/
def DUMP_BUFFSZ : Nat := 4096

/-! ## Data model (tracy.c, lines 28-38) -/

/-- A value of type `struct trace_frame *`: `NULL`, or the address of a frame
with fields `prev`, `func_name`, `source_file` and `line_num` (a `uint32_t`). -/
inductive trace_frame_ptr : Type
  | NULL : trace_frame_ptr
  | frame (prev : trace_frame_ptr) (func_name : List Char) (source_file : List Char)
      (line_num : Nat) : trace_frame_ptr
deriving DecidableEq, Repr

/-- The global `struct stack_trace tracelog`: `count` is a `size_t`. -/
structure stack_trace where
  count : Nat
  top : trace_frame_ptr
deriving DecidableEq, Repr

/-- The zero-initialised global `tracelog`: count 0, top `NULL`. -/
def tracelog_init : stack_trace := { count := 0, top := trace_frame_ptr.NULL }

/-! ## C library functions used by the code -/

/-- The call `snprintf(dst, size, fmt, ...)`: `dst` receives the formatted
text cut to its first `size - 1` chars (the last byte is the terminator). -/
def snprintf (size : Nat) (text : List Char) : List Char :=
  text.take (size - 1)

/-- Conversion of an `int` to `uint32_t` (`new->line_num = line_num`). -/
def uint32_of_int (v : Int) : Nat := (v % 2 ^ 32).toNat

/-- Conversion of a `size_t` to `uint32_t` (`uint32_t count = tracelog.count`). -/
def uint32_of_size (n : Nat) : Nat := n % 2 ^ 32

/-- The `int` (or `int32_t`) with the same low 32 bits: how `int32_t count =
tracelog.count` converts, and how `printf` reads a `uint32_t` argument under
the conversion `%i`. -/
def int32_of_nat (n : Nat) : Int :=
  if n % 2 ^ 32 < 2 ^ 31 then ((n % 2 ^ 32 : Nat) : Int) else ((n % 2 ^ 32 : Nat) : Int) - 2 ^ 32

/-- The conversion `%i` of `printf`: the decimal digits of an `int`, with a
leading minus sign when negative. -/
def printf_i (v : Int) : List Char :=
  if v < 0 then '-' :: Nat.toDigits 10 v.natAbs else Nat.toDigits 10 v.toNat

/-- The flag and width of `%-10i`: left-justified, padded with spaces on the
right up to `width` chars, never cut. -/
def printf_left (width : Nat) (s : List Char) : List Char :=
  s ++ List.replicate (width - s.length) ' '

/-! ## strappend (tracy.c, lines 68-75) -/

/-- The function `strappend(buff, buffsz, src)`: returns the new content of
`buff` and the boolean result. -/
def strappend (buff : List Char) (buffsz : Nat) (src : List Char) : List Char × Bool :=
  if ¬ (src.length + buff.length < buffsz) then
    (buff, false)
  else
    (buff ++ src, true)

/-! ## Frames and the stack (tracy.c, lines 92-153) -/

/-- The function `__Tracy_newframe`: a zeroed frame (`calloc`, so `prev` is
`NULL`) with `line_num` and the two names copied by `snprintf` into their
300-byte fields. The embedding follows the executions in which `calloc`
returns a frame; otherwise `assert(new)` aborts the process. -/
def __Tracy_newframe (source_file func_name : List Char) (line_num : Int) : trace_frame_ptr :=
  trace_frame_ptr.frame trace_frame_ptr.NULL
    (snprintf TEST_NAME_BUFFSZ func_name)
    (snprintf SRCF_NAME_BUFFSZ source_file)
    (uint32_of_int line_num)

/-- The assignment `p->prev = prev`; `none` when `p` is `NULL`. -/
def set_prev (p prev : trace_frame_ptr) : Option trace_frame_ptr :=
  match p with
  | trace_frame_ptr.NULL => none
  | trace_frame_ptr.frame _ f s l => some (trace_frame_ptr.frame prev f s l)

/-- The function `Tracy_push`: `++tracelog.count`, then the new frame becomes
the top with the old top as its `prev`. -/
def Tracy_push (t : stack_trace) (source_file func_name : List Char) (line_num : Int) :
    Option stack_trace :=
  let count := (t.count + 1) % 2 ^ 64
  let prev := t.top
  let top := __Tracy_newframe source_file func_name line_num
  (set_prev top prev).map (fun top1 => { count := count, top := top1 })

/-- The loop of `Tracy_destroy` for a non-negative local `count`:
`while (count) { tmp = tracelog.top->prev; free(tracelog.top); tracelog.top = tmp; --count; }`.
Returns the final `tracelog.top`, or `none` when `tracelog.top` is `NULL` at
`tracelog.top->prev`. -/
def Tracy_destroy_loop : Nat → trace_frame_ptr → Option trace_frame_ptr
  | 0, top => some top
  | _ + 1, trace_frame_ptr.NULL => none
  | count + 1, trace_frame_ptr.frame prev _ _ _ => Tracy_destroy_loop count prev

/-- The function `Tracy_destroy`. The local `int32_t count` is a copy of
`tracelog.count`; the loop frees `count` frames from the top and
`tracelog.count` itself is never written. When the copy is negative the loop
`while (count) { ...; --count; }` moves away from zero: it can only end in a
`NULL` dereference or in signed overflow at `INT32_MIN`, hence `none`. -/
def Tracy_destroy (t : stack_trace) : Option stack_trace :=
  let count : Int := int32_of_nat t.count
  if count < 0 then
    none
  else
    (Tracy_destroy_loop count.toNat t.top).map (fun top => { count := t.count, top := top })

/-- The body of `Tracy_pop` between its two mutex calls, lines 144-150:
nothing when `tracelog.count` is 0; otherwise `--tracelog.count` and
`tracelog.top = tracelog.top->prev`, `none` when `tracelog.top` is `NULL`
there. The whole call, with the mutex calls of lines 142 and 152, is
`Tracy_pop` below. -/
def Tracy_pop_body (t : stack_trace) : Option stack_trace :=
  if t.count = 0 then
    some t
  else
    match t.top with
    | trace_frame_ptr.NULL => none
    | trace_frame_ptr.frame prev _ _ _ => some { count := t.count - 1, top := prev }

/-! ## Tracy_dump (tracy.c, lines 226-275) -/

/-- What a call of `Tracy_dump` does, as far as an observer can tell.
`buffs` is a ghost record of the content of `buff`: first as initialised, then
after each call of `strappend`, in order. `stdout` lists the lines written by
`puts`. `sink` is the text passed to `__Tracy_log("%s", buff)`, or `none` when
that call is not reached. `fault` tells that `top` was `NULL` when the loop
read `top->func_name`. -/
structure dump_result where
  buffs : List (List Char)
  stdout : List (List Char)
  sink : Option (List Char)
  fault : Bool
deriving DecidableEq, Repr

/-- The delimiter literal of lines 241 and 252. -/
def dump_delimiter : List Char := "-----------------------------------\n".toList

/-- The text `puts` writes at lines 242 and 248 (`puts` adds the newline). -/
def dump_no_room : List Char := "not enough room for stacktrace log dump\n".toList

/-- The text formatted by line 246, `"=== Stack trace of '%s' ===\n"`. -/
def dump_title (PROG_NAME : List Char) : List Char :=
  "=== Stack trace of '".toList ++ PROG_NAME ++ "' ===\n".toList

/-- The text formatted by line 256, `"  | %-10i *** %s(), %s: L%i\n"`, from the
local `uint32_t count` and the fields of the frame `top` points to. -/
def dump_frame_line (count : Nat) (func_name source_file : List Char) (line_num : Nat) :
    List Char :=
  "  | ".toList ++ printf_left 10 (printf_i (int32_of_nat count)) ++ " *** ".toList
    ++ func_name ++ "(), ".toList ++ source_file ++ ": L".toList
    ++ printf_i (int32_of_nat line_num) ++ "\n".toList

/-- The loop `while (count) { ... }` of lines 255-267, run from the local
`count`, the local `top` and the current content of `buff`, followed by the
call of `__Tracy_log` when the loop runs to its end. A line that does not fit
leaves by `goto unlock`, past the call of `__Tracy_log`. -/
def Tracy_dump_loop : Nat → trace_frame_ptr → List Char → dump_result
  | 0, _, buff => { buffs := [], stdout := [], sink := some buff, fault := false }
  | _ + 1, trace_frame_ptr.NULL, _ => { buffs := [], stdout := [], sink := none, fault := true }
  | count + 1, trace_frame_ptr.frame prev func_name source_file line_num, buff =>
    let tmpbuff := snprintf DUMP_BUFFSZ (dump_frame_line (count + 1) func_name source_file line_num)
    match strappend buff DUMP_BUFFSZ tmpbuff with
    | (buff1, false) => { buffs := [buff1], stdout := [], sink := none, fault := false }
    | (buff1, true) =>
      let r := Tracy_dump_loop count prev buff1
      { r with buffs := buff1 :: r.buffs }

/-- The function `Tracy_dump`, for the program name stored in `PROG_NAME`. -/
def Tracy_dump (PROG_NAME : List Char) (t : stack_trace) : dump_result :=
  let count := uint32_of_size t.count
  let top := t.top
  let buff : List Char := []
  if count ≠ 0 then
    match strappend buff DUMP_BUFFSZ dump_delimiter with
    | (buff1, false) =>
      { buffs := [buff, buff1], stdout := [dump_no_room], sink := none, fault := false }
    | (buff1, true) =>
      let tmpbuff := snprintf 4096 (dump_title PROG_NAME)
      match strappend buff1 DUMP_BUFFSZ tmpbuff with
      | (buff2, false) =>
        { buffs := [buff, buff1, buff2], stdout := [dump_no_room], sink := none, fault := false }
      | (buff2, true) =>
        let buff3 := (strappend buff2 DUMP_BUFFSZ dump_delimiter).1
        let buff4 := (strappend buff3 DUMP_BUFFSZ "  ^\n".toList).1
        let r := Tracy_dump_loop count top buff4
        { r with buffs := buff :: buff1 :: buff2 :: buff3 :: buff4 :: r.buffs }
  else
    { buffs := [buff], stdout := [], sink := some buff, fault := false }

/-! ## Sequences of calls -/

/-- The arguments of one call of `Tracy_push`. -/
structure push_args where
  source_file : List Char
  func_name : List Char
  line_num : Int
deriving DecidableEq, Repr

/-- One call of `Tracy_push` for each element of the list, in order. -/
def push_all : List push_args → stack_trace → Option stack_trace
  | [], t => some t
  | a :: rest, t => (Tracy_push t a.source_file a.func_name a.line_num).bind (push_all rest)

/-- One of the three operations that change the stack. -/
inductive stack_op : Type
  | push (a : push_args) : stack_op
  | pop : stack_op
  | destroy : stack_op
deriving DecidableEq, Repr

/-- The effect of the body of one operation on the stack. -/
def stack_op.apply (t : stack_trace) : stack_op → Option stack_trace
  | stack_op.push a => Tracy_push t a.source_file a.func_name a.line_num
  | stack_op.pop => Tracy_pop_body t
  | stack_op.destroy => Tracy_destroy t

/-- The effect on the stack of a sequence of such bodies, in order. -/
def run_ops : List stack_op → stack_trace → Option stack_trace
  | [], t => some t
  | op :: rest, t => (op.apply t).bind (run_ops rest)

/-! ## Notions of the specification -/

/-- The number of frames reachable from a pointer by following `prev` until
`NULL`. -/
def chain_length : trace_frame_ptr → Nat
  | trace_frame_ptr.NULL => 0
  | trace_frame_ptr.frame prev _ _ _ => chain_length prev + 1

/-- The count/chain invariant: the stored count is the length of the chain. -/
def count_invariant (t : stack_trace) : Prop := t.count = chain_length t.top

instance (t : stack_trace) : Decidable (count_invariant t) := by
  unfold count_invariant; infer_instance

/-- The content of a frame: function name, source file, line number. -/
structure frame_fields where
  func_name : List Char
  source_file : List Char
  line_num : Nat
deriving DecidableEq, Repr

/-- The frames reachable from a pointer, from the top down. -/
def chain_frames : trace_frame_ptr → List frame_fields
  | trace_frame_ptr.NULL => []
  | trace_frame_ptr.frame prev f s l =>
    { func_name := f, source_file := s, line_num := l } :: chain_frames prev

/-- The content of the frame a call of `Tracy_push` creates. -/
def pushed_frame (a : push_args) : frame_fields :=
  { func_name := snprintf TEST_NAME_BUFFSZ a.func_name,
    source_file := snprintf SRCF_NAME_BUFFSZ a.source_file,
    line_num := uint32_of_int a.line_num }

/-- A line of 35 dashes, the delimiter of the dump layout. -/
def layout_delimiter : List Char := List.replicate 35 '-'

/-- The four header lines of the dump layout, each ended by a newline. -/
def layout_header (program_name : List Char) : List Char :=
  layout_delimiter ++ ['\n']
    ++ ("=== Stack trace of '".toList ++ program_name ++ "' ===".toList) ++ ['\n']
    ++ layout_delimiter ++ ['\n']
    ++ "  ^".toList ++ ['\n']

/-- One frame line of the dump layout: the depth in decimal, left-justified
and padded with spaces to width 10, then the function, the source file and the
line number (the stored 32 bits read as an `int`), ended by a newline. -/
def layout_frame_line (depth : Nat) (fr : frame_fields) : List Char :=
  "  | ".toList
    ++ ((toString depth).toList ++ List.replicate (10 - (toString depth).toList.length) ' ')
    ++ " *** ".toList ++ fr.func_name ++ "(), ".toList ++ fr.source_file ++ ": L".toList
    ++ (toString (int32_of_nat fr.line_num)).toList ++ ['\n']

/-- The frame lines of the dump layout for frames listed from the top down,
the first with the given depth, each next one with a depth one less. -/
def layout_lines : Nat → List frame_fields → List (List Char)
  | _, [] => []
  | depth, fr :: rest => layout_frame_line depth fr :: layout_lines (depth - 1) rest

/-- The full rendering of a non-empty stack: the header, then one line per
frame from the top down, with depths counting down from the number of frames. -/
def layout (program_name : List Char) (frames : List frame_fields) : List Char :=
  layout_header program_name ++ (layout_lines frames.length frames).flatten

/-- The chain that holds the given frames, the first of the list on top. -/
def chain_of : List frame_fields → trace_frame_ptr
  | [] => trace_frame_ptr.NULL
  | fr :: rest => trace_frame_ptr.frame (chain_of rest) fr.func_name fr.source_file fr.line_num

/-! ## Initialisation and sink selection (tracy.h, lines 38-41; tracy.c, lines 43-46, 81-86, 179-213, 332-349) -/

/-- The macro `TRACY_SYSLOG_ENV_VAR`. -/
def TRACY_SYSLOG_ENV_VAR : List Char := "TRACY_USE_SYSLOG".toList

/-- The macro `TRACY_USE_LOGF_ENV_VAR`. -/
def TRACY_USE_LOGF_ENV_VAR : List Char := "TRACY_USE_LOG_FILE".toList

/-- The macro `TRACY_LOGF_NAME_ENV_VAR`. -/
def TRACY_LOGF_NAME_ENV_VAR : List Char := "TRACY_LOG_FILE".toList

/-- The macro `TRACY_DEFAULT_LOG_PATH`. -/
def TRACY_DEFAULT_LOG_PATH : List Char := "/tmp/tracy.log".toList

/-- The file-scoped globals of lines 43-46. -/
structure tracy_globals where
  TRACY_USE_SYSLOG : Bool
  TRACY_USE_LOGFILE : Bool
  TRACY_LOGF_PATH : List Char
  PROG_NAME : List Char
deriving DecidableEq, Repr

/-- The globals as initialised at program start: both flags false, the default
path, `PROG_NAME` all zero bytes. -/
def tracy_globals_init : tracy_globals :=
  { TRACY_USE_SYSLOG := false, TRACY_USE_LOGFILE := false,
    TRACY_LOGF_PATH := TRACY_DEFAULT_LOG_PATH, PROG_NAME := [] }

/-- The process environment as `getenv` reads it: `none` is the `NULL` result
for a variable that is not set. -/
abbrev environment : Type := List Char → Option (List Char)

/-- The function `__Tracy_get_progname`; `base_name` is what
`basename(prog_name)` returns for the content read from `/proc/self/cmdline`.
The name is copied by `snprintf` into the 129-byte `PROG_NAME`. -/
def __Tracy_get_progname (base_name : List Char) (g : tracy_globals) : tracy_globals :=
  { g with PROG_NAME := snprintf PROG_NAME_BUFFSZ base_name }

/-- The function `Tracy_init`, as far as the globals and standard output go:
returns the new globals and the lines written by `puts`. The registration of
the signal handler changes none of them. -/
def Tracy_init (getenv : environment) (base_name : List Char) (g : tracy_globals) :
    tracy_globals × List (List Char) :=
  let g1 := __Tracy_get_progname base_name g
  if (getenv TRACY_SYSLOG_ENV_VAR).isSome then
    ({ g1 with TRACY_USE_SYSLOG := true }, ["will use syslog\n".toList])
  else if (getenv TRACY_USE_LOGF_ENV_VAR).isSome then
    let g2 := { g1 with TRACY_USE_LOGFILE := true }
    let g3 :=
      if (getenv TRACY_LOGF_NAME_ENV_VAR).isSome then
        { g2 with TRACY_LOGF_PATH := (getenv TRACY_LOGF_NAME_ENV_VAR).getD [] }
      else g2
    (g3, ["will use logfile\n".toList])
  else
    (g1, [])

/-- Where `__Tracy_log` writes: the system logger, a file opened for appending
at a path, or standard output. -/
inductive log_sink : Type
  | syslog : log_sink
  | file (path : List Char) : log_sink
  | stdout : log_sink
deriving DecidableEq, Repr

/-- The function `__Tracy_log`, called with the format `"%s"` and a text:
the destination it writes to, chosen from the globals, and the text written. -/
def __Tracy_log (g : tracy_globals) (text : List Char) : log_sink × List Char :=
  if g.TRACY_USE_SYSLOG then
    (log_sink.syslog, text)
  else if g.TRACY_USE_LOGFILE then
    (log_sink.file g.TRACY_LOGF_PATH, text)
  else
    (log_sink.stdout, text)

/-- The sink the configuration asks for: the system log when use-syslog is set,
else the file when use-log-file is set, at the override path when one is given
and at `/tmp/tracy.log` otherwise, else the console. -/
def selected_sink (use_syslog use_log_file : Bool) (log_file_path : Option (List Char)) :
    log_sink :=
  match use_syslog, use_log_file with
  | true, _ => log_sink.syslog
  | false, true =>
    match log_file_path with
    | some path => log_sink.file path
    | none => log_sink.file "/tmp/tracy.log".toList
  | false, false => log_sink.stdout

/-! ## The mutex (tracy.c, line 49 and the calls at lines 107-348)

The calls of `pthread_mutex_lock` and `pthread_mutex_unlock` stand inside
`assert(...)`; the embedding follows the build in which assertions are
compiled in, so that the calls are made. One thread is considered. -/

/-- The state of `tracy_mtx` as the one thread sees it. -/
inductive mutex_state : Type
  | unlocked : mutex_state
  | locked : mutex_state
deriving DecidableEq, Repr

/-- The call `pthread_mutex_lock(&tracy_mtx)`. On a mutex the calling thread
already holds the call does not return (`tracy_mtx` is a default mutex made by
`PTHREAD_MUTEX_INITIALIZER`: the thread waits for itself): `none`. -/
def pthread_mutex_lock : mutex_state → Option mutex_state
  | mutex_state.unlocked => some mutex_state.locked
  | mutex_state.locked => none

/-- The call `pthread_mutex_unlock(&tracy_mtx)`; on a mutex that is not held
the behaviour is undefined: `none`. -/
def pthread_mutex_unlock : mutex_state → Option mutex_state
  | mutex_state.locked => some mutex_state.unlocked
  | mutex_state.unlocked => none

/-- The mutex calls of `Tracy_push`: lock at line 107, unlock at line 115. -/
def Tracy_push_mtx (m : mutex_state) : Option mutex_state :=
  (pthread_mutex_lock m).bind pthread_mutex_unlock

/-- The mutex calls of `Tracy_destroy`: lock at line 122, lock at line 134. -/
def Tracy_destroy_mtx (m : mutex_state) : Option mutex_state :=
  (pthread_mutex_lock m).bind pthread_mutex_lock

/-- The mutex calls of `Tracy_pop`: lock at line 142, lock at line 152 (after
the label `unlock`, reached on both paths). -/
def Tracy_pop_mtx (m : mutex_state) : Option mutex_state :=
  (pthread_mutex_lock m).bind pthread_mutex_lock

/-- The mutex calls of `__Tracy_log`: lock at line 180, lock at line 212. -/
def __Tracy_log_mtx (m : mutex_state) : Option mutex_state :=
  (pthread_mutex_lock m).bind pthread_mutex_lock

/-- The mutex calls of `Tracy_dump` for a program name and a stack: lock at
line 227, the call of `__Tracy_log` at line 271 when the formatting reaches
it, unlock at line 274. When the loop reads a frame through `NULL` the call
does not reach line 274: `none`. -/
def Tracy_dump_mtx (PROG_NAME : List Char) (t : stack_trace) (m : mutex_state) :
    Option mutex_state :=
  (pthread_mutex_lock m).bind (fun m1 =>
    if (Tracy_dump PROG_NAME t).fault then
      none
    else
      (if (Tracy_dump PROG_NAME t).sink.isSome then __Tracy_log_mtx m1 else some m1).bind
        pthread_mutex_unlock)

/-- The mutex calls of `Tracy_init`: lock at line 333, lock at line 348. -/
def Tracy_init_mtx (m : mutex_state) : Option mutex_state :=
  (pthread_mutex_lock m).bind pthread_mutex_lock

/-- A call of one of the five public operations; a dump call carries the
program name and the stack it formats. -/
inductive public_call : Type
  | init : public_call
  | push : public_call
  | pop : public_call
  | dump (PROG_NAME : List Char) (t : stack_trace) : public_call
  | destroy : public_call
deriving DecidableEq, Repr

/-- The mutex calls of one public call. -/
def public_call.mtx (m : mutex_state) : public_call → Option mutex_state
  | public_call.init => Tracy_init_mtx m
  | public_call.push => Tracy_push_mtx m
  | public_call.pop => Tracy_pop_mtx m
  | public_call.dump PROG_NAME t => Tracy_dump_mtx PROG_NAME t m
  | public_call.destroy => Tracy_destroy_mtx m

/-- The mutex calls of a sequence of public calls made by one thread, in
order; `none` when one of them does not return. -/
def run_mtx : List public_call → mutex_state → Option mutex_state
  | [], m => some m
  | c :: rest, m => (c.mtx m).bind (run_mtx rest)

/-- A call that returns with the mutex free when entered with the mutex free:
a push, or a dump that reads no frame through `NULL` and whose formatting does
not reach the sink write. -/
def public_call.releases : public_call → Bool
  | public_call.push => true
  | public_call.dump PROG_NAME t =>
    !(Tracy_dump PROG_NAME t).fault && !(Tracy_dump PROG_NAME t).sink.isSome
  | _ => false

/-! ## Whole calls of Tracy_push and Tracy_pop (tracy.c, lines 106-116 and 141-153) -/

/-- How a call of a public operation ends for the thread that makes it:
it returns, leaving a state of the mutex and of `tracelog`; or it never
returns from a call of `pthread_mutex_lock`, `tracelog` being as given from
then on; or it reads through `NULL`. -/
inductive call_result : Type
  | returned (m : mutex_state) (t : stack_trace) : call_result
  | blocked (t : stack_trace) : call_result
  | faulted : call_result
deriving DecidableEq, Repr

/-- The whole call `Tracy_push(source_file, func_name, line_num)`: lock at
line 107, the body of lines 109-112, unlock at line 115. -/
def Tracy_push_call (m : mutex_state) (t : stack_trace) (source_file func_name : List Char)
    (line_num : Int) : call_result :=
  match pthread_mutex_lock m with
  | none => call_result.blocked t
  | some m1 =>
    match Tracy_push t source_file func_name line_num with
    | none => call_result.faulted
    | some t1 =>
      match pthread_mutex_unlock m1 with
      | none => call_result.faulted
      | some m2 => call_result.returned m2 t1

/-- The whole call `Tracy_pop()`: lock at line 142, the body of lines 144-150
(with its `goto unlock` when the count is 0), and, after the label `unlock`,
the call of `pthread_mutex_lock` at line 152. -/
def Tracy_pop (m : mutex_state) (t : stack_trace) : call_result :=
  match pthread_mutex_lock m with
  | none => call_result.blocked t
  | some m1 =>
    match Tracy_pop_body t with
    | none => call_result.faulted
    | some t1 =>
      match pthread_mutex_lock m1 with
      | none => call_result.blocked t1
      | some m2 => call_result.returned m2 t1

/-- A call of `Tracy_push` or of `Tracy_pop`. -/
inductive stack_call : Type
  | push (a : push_args) : stack_call
  | pop : stack_call
deriving DecidableEq, Repr

/-- The whole call a `stack_call` stands for. -/
def stack_call.run (m : mutex_state) (t : stack_trace) : stack_call → call_result
  | stack_call.push a => Tracy_push_call m t a.source_file a.func_name a.line_num
  | stack_call.pop => Tracy_pop m t

/-- A sequence of calls made one after the other, each entered in the state
the one before it left. The run ends at the first call that does not return:
a mutex held by a thread that waits is never released, so any later call, of
that thread or of another, would wait at its own first lock. A schedule of the
calls of several threads, taken call by call, is such a sequence. -/
def run_calls : List stack_call → mutex_state → stack_trace → call_result
  | [], m, t => call_result.returned m t
  | c :: rest, m, t =>
    match c.run m t with
    | call_result.returned m1 t1 => run_calls rest m1 t1
    | call_result.blocked t1 => call_result.blocked t1
    | call_result.faulted => call_result.faulted

/-! ## Tracy_dump with the global tracelog passed along -/

/-- The loop of `Tracy_dump` as `Tracy_dump_loop`, with the global `tracelog`
passed through every iteration: the body reads and assigns the locals `count`
and `top` and the buffers, and has no assignment to `tracelog` or through a
frame pointer. -/
def Tracy_dump_loop_exec :
    Nat → trace_frame_ptr → List Char → stack_trace → stack_trace × dump_result
  | 0, _, buff, tracelog =>
    (tracelog, { buffs := [], stdout := [], sink := some buff, fault := false })
  | _ + 1, trace_frame_ptr.NULL, _, tracelog =>
    (tracelog, { buffs := [], stdout := [], sink := none, fault := true })
  | count + 1, trace_frame_ptr.frame prev func_name source_file line_num, buff, tracelog =>
    let tmpbuff := snprintf DUMP_BUFFSZ (dump_frame_line (count + 1) func_name source_file line_num)
    match strappend buff DUMP_BUFFSZ tmpbuff with
    | (buff1, false) =>
      (tracelog, { buffs := [buff1], stdout := [], sink := none, fault := false })
    | (buff1, true) =>
      let r := Tracy_dump_loop_exec count prev buff1 tracelog
      (r.1, { r.2 with buffs := buff1 :: r.2.buffs })

/-- The function `Tracy_dump` as a transformer of the global `tracelog`: the
locals `count` and `top` are copies made at lines 229-230; returns the global
after the call together with what the call did. -/
def Tracy_dump_exec (PROG_NAME : List Char) (tracelog : stack_trace) :
    stack_trace × dump_result :=
  let count := uint32_of_size tracelog.count
  let top := tracelog.top
  let buff : List Char := []
  if count ≠ 0 then
    match strappend buff DUMP_BUFFSZ dump_delimiter with
    | (buff1, false) =>
      (tracelog,
        { buffs := [buff, buff1], stdout := [dump_no_room], sink := none, fault := false })
    | (buff1, true) =>
      let tmpbuff := snprintf 4096 (dump_title PROG_NAME)
      match strappend buff1 DUMP_BUFFSZ tmpbuff with
      | (buff2, false) =>
        (tracelog,
          { buffs := [buff, buff1, buff2], stdout := [dump_no_room], sink := none,
            fault := false })
      | (buff2, true) =>
        let buff3 := (strappend buff2 DUMP_BUFFSZ dump_delimiter).1
        let buff4 := (strappend buff3 DUMP_BUFFSZ "  ^\n".toList).1
        let r := Tracy_dump_loop_exec count top buff4 tracelog
        (r.1, { r.2 with buffs := buff :: buff1 :: buff2 :: buff3 :: buff4 :: r.2.buffs })
  else
    (tracelog, { buffs := [buff], stdout := [], sink := some buff, fault := false })

/-- The names of a frame fit their 300-byte fields: at most 299 chars each. -/
def frame_fields.fits (fr : frame_fields) : Prop :=
  fr.func_name.length < TEST_NAME_BUFFSZ ∧ fr.source_file.length < SRCF_NAME_BUFFSZ

instance (fr : frame_fields) : Decidable fr.fits := by
  unfold frame_fields.fits; infer_instance

/-- A stack of the given number of frames, each with a function name and a
source file of 299 chars, as `Tracy_push` leaves it after that many calls with
names of that length or longer. -/
def long_names_stack (n : Nat) : stack_trace :=
  { count := n,
    top := chain_of (List.replicate n
      { func_name := List.replicate 299 'f', source_file := List.replicate 299 's',
        line_num := 1 }) }


/-! ## Basic facts about the stack operations -/

theorem Tracy_push_eq (t : stack_trace) (source_file func_name : List Char) (line_num : Int) :
    Tracy_push t source_file func_name line_num =
      some { count := (t.count + 1) % 2 ^ 64,
             top := trace_frame_ptr.frame t.top (snprintf TEST_NAME_BUFFSZ func_name)
               (snprintf SRCF_NAME_BUFFSZ source_file) (uint32_of_int line_num) } := rfl

theorem chain_length_eq_zero {p : trace_frame_ptr} (h : chain_length p = 0) :
    p = trace_frame_ptr.NULL := by
  cases p with
  | NULL => rfl
  | frame prev f s l => simp [chain_length] at h

theorem int32_of_nat_small {n : Nat} (h : n < 2 ^ 31) : int32_of_nat n = (n : Int) := by
  have h1 : n % 2 ^ 32 = n := Nat.mod_eq_of_lt (by omega)
  unfold int32_of_nat
  rw [h1, if_pos h]

/-- Pushing onto a stack that satisfies the count/chain invariant and has room
in its `size_t` count keeps the invariant and adds one to the count. -/
theorem Tracy_push_invariant (t : stack_trace) (source_file func_name : List Char)
    (line_num : Int) (hinv : count_invariant t) (hroom : t.count + 1 < 2 ^ 64) :
    ∃ t1, Tracy_push t source_file func_name line_num = some t1 ∧
      count_invariant t1 ∧ t1.count = t.count + 1 := by
  refine ⟨_, Tracy_push_eq t source_file func_name line_num, ?_, ?_⟩
  · unfold count_invariant at *
    simp only [chain_length]
    rw [Nat.mod_eq_of_lt hroom, hinv]
  · exact Nat.mod_eq_of_lt hroom

/-- The body of `Tracy_pop`, on a stack that satisfies the count/chain
invariant, never reads a missing frame and keeps the invariant. -/
theorem Tracy_pop_body_invariant (t : stack_trace) (hinv : count_invariant t) :
    ∃ t1, Tracy_pop_body t = some t1 ∧ count_invariant t1 ∧ t1.count = t.count - 1 := by
  obtain ⟨count, top⟩ := t
  unfold count_invariant at hinv
  simp only at hinv
  cases top with
  | NULL =>
    simp only [chain_length] at hinv
    subst hinv
    exact ⟨_, rfl, rfl, rfl⟩
  | frame prev f s l =>
    simp only [chain_length] at hinv
    subst hinv
    refine ⟨{ count := chain_length prev, top := prev }, ?_, rfl, rfl⟩
    simp [Tracy_pop_body]

theorem push_all_invariant (args : List push_args) :
    ∀ t : stack_trace, count_invariant t → t.count + args.length < 2 ^ 64 →
      ∃ t1, push_all args t = some t1 ∧ count_invariant t1 ∧
        t1.count = t.count + args.length := by
  induction args with
  | nil => intro t hinv _; exact ⟨t, rfl, hinv, rfl⟩
  | cons a rest ih =>
    intro t hinv hroom
    simp only [List.length_cons] at hroom
    obtain ⟨t1, h1, hinv1, hc1⟩ :=
      Tracy_push_invariant t a.source_file a.func_name a.line_num hinv (by omega)
    obtain ⟨t2, h2, hinv2, hc2⟩ := ih t1 hinv1 (by omega)
    refine ⟨t2, ?_, hinv2, ?_⟩
    · simp only [push_all, h1, Option.some_bind, h2]
    · simp only [List.length_cons]; omega

theorem count_invariant_zero {t : stack_trace} (hinv : count_invariant t) (h0 : t.count = 0) :
    t = tracelog_init := by
  obtain ⟨count, top⟩ := t
  unfold count_invariant at hinv
  simp only at hinv h0
  subst h0
  have := chain_length_eq_zero hinv.symm
  subst this
  rfl

theorem Tracy_destroy_loop_chain (top : trace_frame_ptr) :
    Tracy_destroy_loop (chain_length top) top = some trace_frame_ptr.NULL := by
  induction top with
  | NULL => rfl
  | frame prev f s l ih => simpa [chain_length, Tracy_destroy_loop] using ih

/-- On a stack that satisfies the count/chain invariant with a count below
`2 ^ 31`, `Tracy_destroy` releases the whole chain and leaves `tracelog.count`
as it was. -/
theorem Tracy_destroy_eq (t : stack_trace) (hinv : count_invariant t) (hc : t.count < 2 ^ 31) :
    Tracy_destroy t = some { count := t.count, top := trace_frame_ptr.NULL } := by
  unfold Tracy_destroy
  simp only [int32_of_nat_small hc]
  have hn : ¬ ((t.count : Int) < 0) := by omega
  rw [if_neg hn, Int.toNat_ofNat, hinv, Tracy_destroy_loop_chain]
  rfl

/-! ## Stack discipline, pop and destroy -/

theorem Tracy_push_call_unlocked (t : stack_trace) (a : push_args) :
    Tracy_push_call mutex_state.unlocked t a.source_file a.func_name a.line_num
      = call_result.returned mutex_state.unlocked
          { count := (t.count + 1) % 2 ^ 64,
            top := trace_frame_ptr.frame t.top (snprintf TEST_NAME_BUFFSZ a.func_name)
              (snprintf SRCF_NAME_BUFFSZ a.source_file) (uint32_of_int a.line_num) } := rfl

/-- Entered with the mutex free, the whole call `Tracy_pop` runs its body and
then waits in the second `pthread_mutex_lock`. -/
theorem Tracy_pop_unlocked (t t1 : stack_trace) (hbody : Tracy_pop_body t = some t1) :
    Tracy_pop mutex_state.unlocked t = call_result.blocked t1 := by
  simp [Tracy_pop, pthread_mutex_lock, hbody]

/-- A run that starts with pushes, entered with the mutex free: the pushes
return with the mutex free and the run goes on from the stack they leave. -/
theorem run_calls_pushes (pre : List push_args) (rest : List stack_call) :
    ∀ t t1 : stack_trace, push_all pre t = some t1 →
      run_calls (pre.map stack_call.push ++ rest) mutex_state.unlocked t
        = run_calls rest mutex_state.unlocked t1 := by
  induction pre with
  | nil =>
    intro t t1 h
    simp only [push_all, Option.some.injEq] at h
    subst h
    rfl
  | cons a pre ih =>
    intro t t1 h
    simp only [push_all, Tracy_push_eq, Option.some_bind] at h
    simp only [List.map_cons, List.cons_append, run_calls, stack_call.run,
      Tracy_push_call_unlocked]
    exact ih _ t1 h

/-- A run of pushes on the empty stack followed by a pop and any further
calls, entered with the mutex free: the pop runs its body and never returns,
and the count stays one below the number of pushes. -/
theorem run_calls_pushes_pop (pre : List push_args) (rest : List stack_call)
    (hN : pre.length < 2 ^ 64) :
    ∃ t, run_calls (pre.map stack_call.push ++ stack_call.pop :: rest) mutex_state.unlocked
        tracelog_init = call_result.blocked t ∧ t.count = pre.length - 1 := by
  obtain ⟨t1, h1, hinv1, hc1⟩ :=
    push_all_invariant pre tracelog_init rfl (by simpa [tracelog_init] using hN)
  obtain ⟨t2, h2, _, hc2⟩ := Tracy_pop_body_invariant t1 hinv1
  refine ⟨t2, ?_, ?_⟩
  · rw [run_calls_pushes pre _ tracelog_init t1 h1]
    simp only [run_calls, stack_call.run, Tracy_pop_unlocked t1 t2 h2]
  · simp only [tracelog_init, Nat.zero_add] at hc1
    omega

/-- C1. Stack discipline fails in the code: starting from the empty stack with
the mutex free, N calls of `Tracy_push` followed by M calls of `Tracy_pop`
(1 ≤ M ≤ N, N below `2 ^ 64`) end inside the first `Tracy_pop`, which runs its
body and then waits in the `pthread_mutex_lock` of line 152; no further pop is
made and the count stays at N - 1, which is not N - M when M is 2 or more. -/
theorem stack_discipline_blocked (args : List push_args) (M : Nat) (hM : 1 ≤ M)
    (hMN : M ≤ args.length) (hN : args.length < 2 ^ 64) :
    ∃ t, run_calls (args.map stack_call.push ++ List.replicate M stack_call.pop)
        mutex_state.unlocked tracelog_init = call_result.blocked t ∧
      t.count = args.length - 1 ∧ (2 ≤ M → t.count ≠ args.length - M) := by
  obtain ⟨k, rfl⟩ : ∃ k, M = k + 1 := ⟨M - 1, by omega⟩
  obtain ⟨t, hrun, hcount⟩ :=
    run_calls_pushes_pop args (List.replicate k stack_call.pop) hN
  refine ⟨t, ?_, hcount, ?_⟩
  · rw [List.replicate_succ]
    exact hrun
  · intro h2
    omega

/-- Witness of C1: two pushes, then two pops. -/
theorem stack_discipline_blocked_witness :
    ∃ t, run_calls
        (([⟨['a'], ['f'], 1⟩, ⟨['a'], ['g'], 2⟩] : List push_args).map stack_call.push
          ++ List.replicate 2 stack_call.pop)
        mutex_state.unlocked tracelog_init = call_result.blocked t ∧
      t.count = 2 - 1 ∧ (2 ≤ 2 → t.count ≠ 2 - 2) :=
  stack_discipline_blocked [⟨['a'], ['f'], 1⟩, ⟨['a'], ['g'], 2⟩] 2 (by decide) (by decide)
    (by decide)

/-- C2. The count/chain invariant is not kept by `Tracy_destroy`: after one
push and a destroy, both succeeding, the stored count is 1 while no frame is
reachable from top. -/
theorem count_invariant_broken_by_destroy :
    run_ops [stack_op.push ⟨['a', '.', 'c'], ['f'], 10⟩, stack_op.destroy] tracelog_init
        = some { count := 1, top := trace_frame_ptr.NULL } ∧
      chain_length trace_frame_ptr.NULL = 0 ∧
      ¬ count_invariant { count := 1, top := trace_frame_ptr.NULL } := by
  decide

/-- C6. On every stack that satisfies the count/chain invariant and is not
empty (count below `2 ^ 31`), `Tracy_destroy` releases every frame but leaves
the stored count as it was, so the count is not 0 afterwards. -/
theorem Tracy_destroy_keeps_count (t : stack_trace) (hinv : count_invariant t)
    (hpos : 0 < t.count) (hc : t.count < 2 ^ 31) :
    ∃ t1, Tracy_destroy t = some t1 ∧ t1.top = trace_frame_ptr.NULL ∧
      t1.count = t.count ∧ t1.count ≠ 0 :=
  ⟨_, Tracy_destroy_eq t hinv hc, rfl, rfl, by simpa using Nat.pos_iff_ne_zero.mp hpos⟩

/-- Witness of C6: the stack of the end-to-end scenario, frames f1 and f2. -/
theorem Tracy_destroy_keeps_count_witness :
    ∃ t1, Tracy_destroy
        { count := 2,
          top := trace_frame_ptr.frame
            (trace_frame_ptr.frame trace_frame_ptr.NULL ['f', '1'] ['a', '.', 'c'] 10)
            ['f', '2'] ['a', '.', 'c'] 20 } = some t1 ∧
      t1.top = trace_frame_ptr.NULL ∧ t1.count = 2 ∧ t1.count ≠ 0 :=
  Tracy_destroy_keeps_count
    { count := 2,
      top := trace_frame_ptr.frame
        (trace_frame_ptr.frame trace_frame_ptr.NULL ['f', '1'] ['a', '.', 'c'] 10)
        ['f', '2'] ['a', '.', 'c'] 20 } (by decide) (by decide) (by decide)

/-- C7. On every stack that satisfies the count/chain invariant and is not
empty (count below `2 ^ 31`), a second call of `Tracy_destroy` right after the
first reads `tracelog.top->prev` with `tracelog.top` equal to `NULL`. -/
theorem Tracy_destroy_twice_faults (t : stack_trace) (hinv : count_invariant t)
    (hpos : 0 < t.count) (hc : t.count < 2 ^ 31) :
    (Tracy_destroy t).bind Tracy_destroy = none := by
  rw [Tracy_destroy_eq t hinv hc, Option.some_bind]
  unfold Tracy_destroy
  simp only [int32_of_nat_small hc]
  have hn : ¬ ((t.count : Int) < 0) := by omega
  rw [if_neg hn, Int.toNat_ofNat]
  obtain ⟨n, hn1⟩ := Nat.exists_eq_succ_of_ne_zero (Nat.pos_iff_ne_zero.mp hpos)
  rw [hn1]
  rfl

/-- Witness of C7: one frame on the stack. -/
theorem Tracy_destroy_twice_faults_witness :
    (Tracy_destroy
        { count := 1,
          top := trace_frame_ptr.frame trace_frame_ptr.NULL ['f'] ['a', '.', 'c'] 10 }).bind
      Tracy_destroy = none :=
  Tracy_destroy_twice_faults
    { count := 1, top := trace_frame_ptr.frame trace_frame_ptr.NULL ['f'] ['a', '.', 'c'] 10 }
    (by decide) (by decide) (by decide)

/-- C8. `Tracy_pop` fails on the empty stack, and on every other: entered
with the mutex free on a stack whose count is 0 (top `NULL` or not), the call
changes nothing and then waits in the `pthread_mutex_lock` of line 152, the
one the `goto unlock` leads to, and never returns; on a stack with a non-zero
count and a top frame the body makes the frame beneath the top the new top
and takes one off the count, and the call never returns in the same way. -/
theorem Tracy_pop_blocks (count : Nat) (top prev : trace_frame_ptr)
    (func_name source_file : List Char) (line_num : Nat) :
    Tracy_pop mutex_state.unlocked { count := 0, top := trace_frame_ptr.NULL }
        = call_result.blocked { count := 0, top := trace_frame_ptr.NULL } ∧
      Tracy_pop mutex_state.unlocked { count := 0, top := top }
        = call_result.blocked { count := 0, top := top } ∧
      Tracy_pop mutex_state.unlocked
          { count := count + 1,
            top := trace_frame_ptr.frame prev func_name source_file line_num }
        = call_result.blocked { count := count, top := prev } := by
  refine ⟨rfl, rfl, ?_⟩
  exact Tracy_pop_unlocked _ _ (by simp [Tracy_pop_body])

/-- C9. The empty dump does not return: when the count is 0, for every
program name, `Tracy_dump` appends nothing, writes no warning, reads no frame
and calls `__Tracy_log` with the empty string; `__Tracy_log` then locks, at
line 180, the mutex `Tracy_dump` took at line 227, so the call entered with
the mutex free never returns and nothing is written. -/
theorem Tracy_dump_empty_blocks (PROG_NAME : List Char) (top : trace_frame_ptr) :
    Tracy_dump PROG_NAME { count := 0, top := top }
        = { buffs := [[]], stdout := [], sink := some [], fault := false } ∧
      Tracy_dump_mtx PROG_NAME { count := 0, top := top } mutex_state.unlocked = none :=
  ⟨rfl, rfl⟩


/-! ## Facts about strappend and the formatting functions -/

theorem strappend_fits {buff src : List Char} {buffsz : Nat}
    (h : src.length + buff.length < buffsz) :
    strappend buff buffsz src = (buff ++ src, true) := by
  simp [strappend, h]

theorem strappend_full {buff src : List Char} {buffsz : Nat}
    (h : buffsz ≤ src.length + buff.length) :
    strappend buff buffsz src = (buff, false) := by
  simp [strappend, h]

theorem strappend_length_le (buff src : List Char) (buffsz : Nat)
    (h : buff.length ≤ buffsz - 1) : (strappend buff buffsz src).1.length ≤ buffsz - 1 := by
  by_cases hfit : src.length + buff.length < buffsz
  · rw [strappend_fits hfit]
    simp only [List.length_append]
    omega
  · rw [strappend_full (by omega)]
    exact h

theorem strappend_extends (buff src : List Char) (buffsz : Nat) :
    buff <+: (strappend buff buffsz src).1 := by
  by_cases hfit : src.length + buff.length < buffsz
  · rw [strappend_fits hfit]
    exact ⟨src, rfl⟩
  · have hfull : strappend buff buffsz src = (buff, false) := strappend_full (by omega)
    exact hfull ▸ ⟨[], List.append_nil buff⟩

theorem snprintf_short {size : Nat} {text : List Char} (h : text.length < size) :
    snprintf size text = text := by
  unfold snprintf
  exact List.take_of_length_le (by omega)

theorem snprintf_length (size : Nat) (text : List Char) :
    (snprintf size text).length = min (size - 1) text.length := by
  unfold snprintf
  exact List.length_take _ _

theorem printf_i_eq_toString (v : Int) : printf_i v = (toString v).toList := by
  cases v with
  | ofNat n => rfl
  | negSucc n =>
    unfold printf_i
    rw [if_pos (Int.negSucc_lt_zero n)]
    rfl

theorem dump_frame_line_eq_layout (count : Nat) (hc : count < 2 ^ 31) (fr : frame_fields) :
    dump_frame_line count fr.func_name fr.source_file fr.line_num = layout_frame_line count fr := by
  unfold dump_frame_line layout_frame_line printf_left
  rw [printf_i_eq_toString, printf_i_eq_toString, int32_of_nat_small hc]
  rfl

theorem dump_header_eq_layout (PROG_NAME : List Char) :
    dump_delimiter ++ dump_title PROG_NAME ++ dump_delimiter ++ "  ^\n".toList
      = layout_header PROG_NAME := by
  have h1 : dump_delimiter = layout_delimiter ++ ['\n'] := by decide
  have h2 : "' ===\n".toList = "' ===".toList ++ ['\n'] := by decide
  have h3 : "  ^\n".toList = "  ^".toList ++ ['\n'] := by decide
  unfold dump_title layout_header
  rw [h1, h2, h3]
  simp only [List.append_assoc]

theorem layout_header_length (program_name : List Char) :
    (layout_header program_name).length = program_name.length + 102 := by
  have h1 : layout_delimiter.length = 35 := by decide
  have h2 : "=== Stack trace of '".toList.length = 20 := by decide
  have h3 : "' ===".toList.length = 5 := by decide
  have h4 : "  ^".toList.length = 3 := by decide
  unfold layout_header
  simp only [List.length_append, h1, h2, h3, h4, List.length_cons, List.length_nil]
  omega

theorem layout_frame_line_length_pos (depth : Nat) (fr : frame_fields) :
    0 < (layout_frame_line depth fr).length := by
  unfold layout_frame_line
  simp only [List.length_append, List.length_cons, List.length_nil]
  omega

theorem layout_lines_length (frames : List frame_fields) :
    ∀ depth, (layout_lines depth frames).length = frames.length := by
  induction frames with
  | nil => intro depth; rfl
  | cons fr rest ih => intro depth; simp only [layout_lines, List.length_cons, ih]

theorem layout_lines_flatten_length_ge (frames : List frame_fields) :
    ∀ depth, frames.length ≤ (layout_lines depth frames).flatten.length := by
  induction frames with
  | nil => intro depth; simp [layout_lines]
  | cons fr rest ih =>
    intro depth
    have h1 := layout_frame_line_length_pos depth fr
    have h2 := ih (depth - 1)
    simp only [layout_lines, List.flatten_cons, List.length_append, List.length_cons]
    omega

theorem layout_lines_getElem? (frames : List frame_fields) :
    ∀ depth i, (layout_lines depth frames)[i]? =
      (frames[i]?).map (fun fr => layout_frame_line (depth - i) fr) := by
  induction frames with
  | nil => intro depth i; simp [layout_lines]
  | cons fr rest ih =>
    intro depth i
    cases i with
    | zero => simp [layout_lines]
    | succ i =>
      simp only [layout_lines, List.getElem?_cons_succ, ih]
      have : depth - 1 - i = depth - (i + 1) := by omega
      rw [this]

theorem chain_frames_length (top : trace_frame_ptr) :
    (chain_frames top).length = chain_length top := by
  induction top with
  | NULL => rfl
  | frame prev f s l ih => simp only [chain_frames, chain_length, List.length_cons, ih]

/-! ## The loop of Tracy_dump -/

/-- When the frame lines of the whole chain fit after the current content of
`buff`, the loop appends all of them and reaches the sink write. -/
theorem Tracy_dump_loop_fits (top : trace_frame_ptr) :
    ∀ buff : List Char, chain_length top < 2 ^ 31 →
      buff.length + (layout_lines (chain_length top) (chain_frames top)).flatten.length
        < DUMP_BUFFSZ →
      (Tracy_dump_loop (chain_length top) top buff).sink
          = some (buff ++ (layout_lines (chain_length top) (chain_frames top)).flatten) ∧
        (Tracy_dump_loop (chain_length top) top buff).fault = false ∧
        (Tracy_dump_loop (chain_length top) top buff).stdout = [] := by
  induction top with
  | NULL =>
    intro buff _ _
    simp [chain_length, chain_frames, layout_lines, Tracy_dump_loop]
  | frame prev f s l ih =>
    intro buff hc hfit
    simp only [chain_length, chain_frames, layout_lines, List.flatten_cons, List.length_append,
      Nat.add_sub_cancel] at hc hfit ⊢
    have hline := dump_frame_line_eq_layout (chain_length prev + 1) hc
      { func_name := f, source_file := s, line_num := l }
    simp only at hline
    have hshort : (layout_frame_line (chain_length prev + 1)
        { func_name := f, source_file := s, line_num := l }).length < DUMP_BUFFSZ := by omega
    obtain ⟨h1, h2, h3⟩ := ih
      (buff ++ layout_frame_line (chain_length prev + 1)
        { func_name := f, source_file := s, line_num := l })
      (by omega) (by simp only [List.length_append]; omega)
    have hfit2 : (layout_frame_line (chain_length prev + 1)
        { func_name := f, source_file := s, line_num := l }).length + buff.length
          < DUMP_BUFFSZ := by omega
    simp only [Tracy_dump_loop, hline, snprintf_short hshort, strappend_fits hfit2, h1, h2, h3,
      List.append_assoc, and_self]

/-- When the frame lines of the whole chain do not fit after the current
content of `buff`, the loop leaves at the first line that does not fit and the
sink write is not reached. -/
theorem Tracy_dump_loop_overflow (top : trace_frame_ptr) :
    ∀ buff : List Char, chain_length top < 2 ^ 31 → 0 < buff.length →
      buff.length < DUMP_BUFFSZ →
      DUMP_BUFFSZ ≤
        buff.length + (layout_lines (chain_length top) (chain_frames top)).flatten.length →
      (Tracy_dump_loop (chain_length top) top buff).sink = none ∧
        (Tracy_dump_loop (chain_length top) top buff).fault = false ∧
        (Tracy_dump_loop (chain_length top) top buff).stdout = [] := by
  induction top with
  | NULL =>
    intro buff _ _ hlt hge
    simp only [chain_length, chain_frames, layout_lines, List.flatten_nil, List.length_nil] at hge
    omega
  | frame prev f s l ih =>
    intro buff hc hpos hlt hge
    simp only [chain_length, chain_frames, layout_lines, List.flatten_cons, List.length_append,
      Nat.add_sub_cancel] at hc hge ⊢
    have hline := dump_frame_line_eq_layout (chain_length prev + 1) hc
      { func_name := f, source_file := s, line_num := l }
    simp only at hline
    simp only [Tracy_dump_loop, hline]
    by_cases hfit : (snprintf DUMP_BUFFSZ (layout_frame_line (chain_length prev + 1)
        { func_name := f, source_file := s, line_num := l })).length + buff.length < DUMP_BUFFSZ
    · have hlen := snprintf_length DUMP_BUFFSZ (layout_frame_line (chain_length prev + 1)
        { func_name := f, source_file := s, line_num := l })
      have hshort : (layout_frame_line (chain_length prev + 1)
          { func_name := f, source_file := s, line_num := l }).length < DUMP_BUFFSZ := by
        simp only [DUMP_BUFFSZ] at hlen hfit ⊢
        omega
      rw [snprintf_short hshort] at hfit ⊢
      obtain ⟨h1, h2, h3⟩ := ih
        (buff ++ layout_frame_line (chain_length prev + 1)
          { func_name := f, source_file := s, line_num := l })
        (by omega) (by simp only [List.length_append]; omega)
        (by simp only [List.length_append]; omega)
        (by simp only [List.length_append]; omega)
      simp only [strappend_fits hfit, h1, h2, h3, and_self]
    · simp only [strappend_full (Nat.le_of_not_lt hfit), and_self]


/-! ## The header of Tracy_dump -/

theorem dump_delimiter_length : dump_delimiter.length = 36 := by decide

theorem dump_title_length (PROG_NAME : List Char) :
    (dump_title PROG_NAME).length = PROG_NAME.length + 26 := by
  have h1 : "=== Stack trace of '".toList.length = 20 := by decide
  have h2 : "' ===\n".toList.length = 6 := by decide
  unfold dump_title
  simp only [List.length_append, h1, h2]
  omega

/-- When the count is not 0 modulo `2 ^ 32` and the four header lines fit, the
four header appends succeed and the loop starts from the header. -/
theorem Tracy_dump_header (PROG_NAME : List Char) (t : stack_trace)
    (hne : uint32_of_size t.count ≠ 0) (hprog : PROG_NAME.length + 102 < DUMP_BUFFSZ) :
    Tracy_dump PROG_NAME t =
      { buffs := [] :: dump_delimiter :: (dump_delimiter ++ dump_title PROG_NAME)
          :: (dump_delimiter ++ dump_title PROG_NAME ++ dump_delimiter)
          :: layout_header PROG_NAME
          :: (Tracy_dump_loop (uint32_of_size t.count) t.top (layout_header PROG_NAME)).buffs,
        stdout := (Tracy_dump_loop (uint32_of_size t.count) t.top (layout_header PROG_NAME)).stdout,
        sink := (Tracy_dump_loop (uint32_of_size t.count) t.top (layout_header PROG_NAME)).sink,
        fault := (Tracy_dump_loop (uint32_of_size t.count) t.top (layout_header PROG_NAME)).fault } := by
  have hd := dump_delimiter_length
  have ht := dump_title_length PROG_NAME
  have h4 : "  ^\n".toList.length = 4 := by decide
  simp only [DUMP_BUFFSZ] at hprog
  have e1 : strappend [] DUMP_BUFFSZ dump_delimiter = ([] ++ dump_delimiter, true) :=
    strappend_fits (by simp only [DUMP_BUFFSZ, List.length_nil]; omega)
  have e2 : snprintf 4096 (dump_title PROG_NAME) = dump_title PROG_NAME :=
    snprintf_short (by omega)
  have e3 : strappend dump_delimiter DUMP_BUFFSZ (dump_title PROG_NAME)
      = (dump_delimiter ++ dump_title PROG_NAME, true) :=
    strappend_fits (by simp only [DUMP_BUFFSZ]; omega)
  have e4 : strappend (dump_delimiter ++ dump_title PROG_NAME) DUMP_BUFFSZ dump_delimiter
      = (dump_delimiter ++ dump_title PROG_NAME ++ dump_delimiter, true) :=
    strappend_fits (by simp only [DUMP_BUFFSZ, List.length_append]; omega)
  have e5 : strappend (dump_delimiter ++ dump_title PROG_NAME ++ dump_delimiter) DUMP_BUFFSZ
      "  ^\n".toList
      = (dump_delimiter ++ dump_title PROG_NAME ++ dump_delimiter ++ "  ^\n".toList, true) :=
    strappend_fits (by simp only [DUMP_BUFFSZ, List.length_append]; omega)
  unfold Tracy_dump
  simp only [hne, ne_eq, not_false_eq_true, if_true, e1, List.nil_append, e2, e3, e4, e5,
    dump_header_eq_layout]

/-! ## The dump of a stack -/

/-- On a stack that satisfies the count/chain invariant and is not empty,
when the full rendering fits the buffer, the sink receives exactly the full
rendering. -/
theorem Tracy_dump_of_fits (PROG_NAME : List Char) (t : stack_trace) (hinv : count_invariant t)
    (hne : t.count ≠ 0) (hfit : (layout PROG_NAME (chain_frames t.top)).length < DUMP_BUFFSZ) :
    (Tracy_dump PROG_NAME t).sink = some (layout PROG_NAME (chain_frames t.top)) ∧
      (Tracy_dump PROG_NAME t).fault = false ∧ (Tracy_dump PROG_NAME t).stdout = [] := by
  unfold layout at hfit ⊢
  rw [chain_frames_length] at hfit ⊢
  have hge := layout_lines_flatten_length_ge (chain_frames t.top) (chain_length t.top)
  rw [chain_frames_length] at hge
  have hh := layout_header_length PROG_NAME
  simp only [List.length_append, DUMP_BUFFSZ] at hfit
  unfold count_invariant at hinv
  have hsmall : uint32_of_size t.count = chain_length t.top := by
    unfold uint32_of_size
    rw [hinv]
    exact Nat.mod_eq_of_lt (by omega)
  have hne2 : uint32_of_size t.count ≠ 0 := by rw [hsmall, ← hinv]; exact hne
  rw [Tracy_dump_header PROG_NAME t hne2 (by simp only [DUMP_BUFFSZ]; omega), hsmall]
  exact Tracy_dump_loop_fits t.top (layout_header PROG_NAME) (by omega)
    (by simp only [DUMP_BUFFSZ]; omega)

/-- C4. Dump text layout: for every stack that satisfies the count/chain
invariant and is not empty, and every program name, such that the full
rendering `layout` fits the buffer, the text `Tracy_dump` passes to the sink is
exactly `layout`: a line of 35 dashes, the title line, the same dashes, the
line with the up marker, then one line per frame from the top down, each with
its depth in decimal left-justified in width 10, the function, the source file
and the line number; no warning is written and no frame is missing. -/
theorem Tracy_dump_layout (PROG_NAME : List Char) (t : stack_trace) (hinv : count_invariant t)
    (hne : t.count ≠ 0) (hfit : (layout PROG_NAME (chain_frames t.top)).length < DUMP_BUFFSZ) :
    (Tracy_dump PROG_NAME t).sink = some (layout PROG_NAME (chain_frames t.top)) ∧
      (Tracy_dump PROG_NAME t).fault = false ∧ (Tracy_dump PROG_NAME t).stdout = [] :=
  Tracy_dump_of_fits PROG_NAME t hinv hne hfit

set_option maxRecDepth 8000 in
/-- Witness of C4: the two frames of the end-to-end scenario under the program
name `p`. -/
theorem Tracy_dump_layout_witness :
    (Tracy_dump ['p']
        { count := 2,
          top := trace_frame_ptr.frame
            (trace_frame_ptr.frame trace_frame_ptr.NULL ['f', '1'] ['a', '.', 'c'] 10)
            ['f', '2'] ['a', '.', 'c'] 20 }).sink
        = some (layout ['p']
            [{ func_name := ['f', '2'], source_file := ['a', '.', 'c'], line_num := 20 },
             { func_name := ['f', '1'], source_file := ['a', '.', 'c'], line_num := 10 }]) ∧
      (Tracy_dump ['p']
        { count := 2,
          top := trace_frame_ptr.frame
            (trace_frame_ptr.frame trace_frame_ptr.NULL ['f', '1'] ['a', '.', 'c'] 10)
            ['f', '2'] ['a', '.', 'c'] 20 }).fault = false ∧
      (Tracy_dump ['p']
        { count := 2,
          top := trace_frame_ptr.frame
            (trace_frame_ptr.frame trace_frame_ptr.NULL ['f', '1'] ['a', '.', 'c'] 10)
            ['f', '2'] ['a', '.', 'c'] 20 }).stdout = [] :=
  Tracy_dump_layout ['p']
    { count := 2,
      top := trace_frame_ptr.frame
        (trace_frame_ptr.frame trace_frame_ptr.NULL ['f', '1'] ['a', '.', 'c'] 10)
        ['f', '2'] ['a', '.', 'c'] 20 }
    (by decide) (by decide) (by decide)


theorem push_all_frames (args : List push_args) :
    ∀ t t1 : stack_trace, push_all args t = some t1 →
      chain_frames t1.top = (args.map pushed_frame).reverse ++ chain_frames t.top := by
  induction args with
  | nil =>
    intro t t1 h
    simp only [push_all, Option.some.injEq] at h
    subst h
    rfl
  | cons a rest ih =>
    intro t t1 h
    simp only [push_all, Tracy_push_eq, Option.some_bind] at h
    rw [ih _ t1 h]
    simp only [chain_frames, pushed_frame, List.map_cons, List.reverse_cons, List.append_assoc,
      List.singleton_append]

/-- C3. Order preservation: for every non-empty sequence of calls of
`Tracy_push` on the empty stack whose rendering fits the buffer, the text
passed to the sink is the header followed by one line per pushed frame, top
first: line i (from 0) is the frame line with depth label n - i for the frame
created by call n - 1 - i (from 0), that is, in the numbering from 1 of the
claim, line i has label n - i + 1 and shows frame n - i + 1. -/
theorem Tracy_dump_order (PROG_NAME : List Char) (args : List push_args) (hne : args ≠ [])
    (hfit : (layout PROG_NAME (args.map pushed_frame).reverse).length < DUMP_BUFFSZ) :
    ∃ (t : stack_trace) (lines : List (List Char)),
      push_all args tracelog_init = some t ∧
      (Tracy_dump PROG_NAME t).sink = some (layout_header PROG_NAME ++ lines.flatten) ∧
      lines.length = args.length ∧
      ∀ i, i < args.length →
        lines[i]? = (args[args.length - 1 - i]?).map
          (fun a => layout_frame_line (args.length - i) (pushed_frame a)) := by
  have hlen : args.length < DUMP_BUFFSZ := by
    have h1 := layout_lines_flatten_length_ge (args.map pushed_frame).reverse
      (args.map pushed_frame).reverse.length
    unfold layout at hfit
    simp only [List.length_append, List.length_reverse, List.length_map] at hfit h1
    omega
  obtain ⟨t, hpush, hinv, hcount⟩ := push_all_invariant args tracelog_init rfl
    (by simp only [tracelog_init, DUMP_BUFFSZ] at hlen ⊢; omega)
  have hframes : chain_frames t.top = (args.map pushed_frame).reverse := by
    rw [push_all_frames args tracelog_init t hpush]
    simp [tracelog_init, chain_frames]
  have hcount1 : t.count = args.length := by simpa [tracelog_init] using hcount
  have hpos : args.length ≠ 0 := by
    intro h0
    exact hne (List.length_eq_zero.mp h0)
  obtain ⟨hsink, _, _⟩ := Tracy_dump_of_fits PROG_NAME t hinv (by omega) (by rw [hframes]; exact hfit)
  refine ⟨t, layout_lines args.length (args.map pushed_frame).reverse, hpush, ?_, ?_, ?_⟩
  · rw [hsink, hframes]
    unfold layout
    simp only [List.length_reverse, List.length_map]
  · simp only [layout_lines_length, List.length_reverse, List.length_map]
  · intro i hi
    rw [layout_lines_getElem?, List.getElem?_reverse (by simpa using hi), List.getElem?_map]
    simp only [List.length_map, Option.map_map]
    rfl

set_option maxRecDepth 8000 in
/-- Witness of C3: pushing A, B, C gives the labels 3, 2, 1 against C, B, A. -/
theorem Tracy_dump_order_witness :
    ∃ (t : stack_trace) (lines : List (List Char)),
      push_all [⟨['a', '.', 'c'], ['A'], 10⟩, ⟨['b', '.', 'c'], ['B'], 20⟩,
          ⟨['c', '.', 'c'], ['C'], 30⟩] tracelog_init = some t ∧
      (Tracy_dump ['p'] t).sink = some (layout_header ['p'] ++ lines.flatten) ∧
      lines.length = 3 ∧
      ∀ i, i < 3 →
        lines[i]? =
          (([⟨['a', '.', 'c'], ['A'], 10⟩, ⟨['b', '.', 'c'], ['B'], 20⟩,
              ⟨['c', '.', 'c'], ['C'], 30⟩] : List push_args)[3 - 1 - i]?).map
            (fun a => layout_frame_line (3 - i) (pushed_frame a)) :=
  Tracy_dump_order ['p']
    [⟨['a', '.', 'c'], ['A'], 10⟩, ⟨['b', '.', 'c'], ['B'], 20⟩, ⟨['c', '.', 'c'], ['C'], 30⟩]
    (by decide) (by decide)

/-! ## Overflow of the dump buffer -/

theorem dump_frame_line_length_pos (count : Nat) (func_name source_file : List Char)
    (line_num : Nat) : 0 < (dump_frame_line count func_name source_file line_num).length := by
  have h1 : "  | ".toList.length = 4 := by decide
  unfold dump_frame_line
  simp only [List.length_append, h1]
  omega

/-- When there are at least as many frames in the chain as free bytes in
`buff`, the loop leaves at a line that does not fit and the sink write is not
reached. -/
theorem Tracy_dump_loop_many (top : trace_frame_ptr) :
    ∀ buff : List Char, 0 < buff.length → buff.length < DUMP_BUFFSZ →
      DUMP_BUFFSZ ≤ chain_length top + buff.length →
      (Tracy_dump_loop (chain_length top) top buff).sink = none ∧
        (Tracy_dump_loop (chain_length top) top buff).fault = false ∧
        (Tracy_dump_loop (chain_length top) top buff).stdout = [] := by
  induction top with
  | NULL =>
    intro buff _ hlt hge
    simp only [chain_length] at hge
    omega
  | frame prev f s l ih =>
    intro buff hpos hlt hge
    simp only [chain_length] at hge ⊢
    simp only [Tracy_dump_loop]
    have hlen := snprintf_length DUMP_BUFFSZ (dump_frame_line (chain_length prev + 1) f s l)
    have hline := dump_frame_line_length_pos (chain_length prev + 1) f s l
    by_cases hfit : (snprintf DUMP_BUFFSZ
        (dump_frame_line (chain_length prev + 1) f s l)).length + buff.length < DUMP_BUFFSZ
    · obtain ⟨h1, h2, h3⟩ := ih
        (buff ++ snprintf DUMP_BUFFSZ (dump_frame_line (chain_length prev + 1) f s l))
        (by simp only [List.length_append]; omega)
        (by simp only [List.length_append]; omega)
        (by simp only [List.length_append, DUMP_BUFFSZ] at hlen hge ⊢; omega)
      simp only [strappend_fits hfit, h1, h2, h3, and_self]
    · simp only [strappend_full (Nat.le_of_not_lt hfit), and_self]

/-- On a stack that satisfies the count/chain invariant with fewer than
`2 ^ 32` frames, under a program name that fits `PROG_NAME`, when the full
rendering does not fit the buffer the sink write is not reached. -/
theorem Tracy_dump_of_overflow (PROG_NAME : List Char) (t : stack_trace)
    (hprog : PROG_NAME.length < PROG_NAME_BUFFSZ) (hinv : count_invariant t)
    (hc : t.count < 2 ^ 32)
    (hover : DUMP_BUFFSZ ≤ (layout PROG_NAME (chain_frames t.top)).length) :
    (Tracy_dump PROG_NAME t).sink = none ∧ (Tracy_dump PROG_NAME t).fault = false ∧
      (Tracy_dump PROG_NAME t).stdout = [] := by
  unfold layout at hover
  rw [chain_frames_length] at hover
  have hh := layout_header_length PROG_NAME
  simp only [List.length_append, DUMP_BUFFSZ] at hover
  simp only [PROG_NAME_BUFFSZ] at hprog
  unfold count_invariant at hinv
  have hsmall : uint32_of_size t.count = chain_length t.top := by
    unfold uint32_of_size
    rw [← hinv]
    exact Nat.mod_eq_of_lt hc
  have hne2 : uint32_of_size t.count ≠ 0 := by
    rw [hsmall]
    intro h0
    rw [chain_length_eq_zero h0] at hover
    simp only [chain_frames, chain_length, layout_lines, List.flatten_nil, List.length_nil]
      at hover
    omega
  rw [Tracy_dump_header PROG_NAME t hne2 (by simp only [DUMP_BUFFSZ]; omega), hsmall]
  by_cases h31 : chain_length t.top < 2 ^ 31
  · exact Tracy_dump_loop_overflow t.top (layout_header PROG_NAME) h31 (by omega)
      (by simp only [DUMP_BUFFSZ]; omega) (by simp only [DUMP_BUFFSZ]; omega)
  · exact Tracy_dump_loop_many t.top (layout_header PROG_NAME) (by omega)
      (by simp only [DUMP_BUFFSZ]; omega) (by simp only [DUMP_BUFFSZ]; omega)


/-- C5, as amended. For every stack that satisfies the count/chain invariant
with fewer than `2 ^ 32` frames, under a program name that fits `PROG_NAME`,
whose full rendering does not fit the 4096-byte buffer, `Tracy_dump` leaves by
`goto unlock` at the first frame line that does not fit: the sink write is not
reached, so nothing is written, the part that did fit included; there is no
fault and nothing goes to standard output. -/
theorem Tracy_dump_overflow_writes_nothing (PROG_NAME : List Char) (t : stack_trace)
    (hprog : PROG_NAME.length < PROG_NAME_BUFFSZ) (hinv : count_invariant t)
    (hc : t.count < 2 ^ 32)
    (hover : DUMP_BUFFSZ ≤ (layout PROG_NAME (chain_frames t.top)).length) :
    (Tracy_dump PROG_NAME t).sink = none ∧ (Tracy_dump PROG_NAME t).fault = false ∧
      (Tracy_dump PROG_NAME t).stdout = [] :=
  Tracy_dump_of_overflow PROG_NAME t hprog hinv hc hover

/-- Witness of C5 as amended: eight frames with names of 299 chars. -/
theorem Tracy_dump_overflow_writes_nothing_witness :
    (Tracy_dump ['p']
        { count := 8,
          top := chain_of (List.replicate 8
            ⟨List.replicate 299 'f', List.replicate 299 's', 1⟩) }).sink = none ∧
      (Tracy_dump ['p']
        { count := 8,
          top := chain_of (List.replicate 8
            ⟨List.replicate 299 'f', List.replicate 299 's', 1⟩) }).fault = false ∧
      (Tracy_dump ['p']
        { count := 8,
          top := chain_of (List.replicate 8
            ⟨List.replicate 299 'f', List.replicate 299 's', 1⟩) }).stdout = [] :=
  Tracy_dump_overflow_writes_nothing ['p']
    { count := 8,
      top := chain_of (List.replicate 8 ⟨List.replicate 299 'f', List.replicate 299 's', 1⟩) }
    (by decide) (by decide!) (by decide) (by decide!)

/-- Counterexample to C5 as stated: after seven calls of `Tracy_push` with
names of 299 chars the rendering takes more than 4096 bytes; the header and
six frame lines, 3859 bytes, were appended to the buffer, and `Tracy_dump`
passes nothing to the sink. -/
theorem Tracy_dump_overflow_no_partial_output :
    ∃ t, push_all (List.replicate 7 ⟨List.replicate 299 'y', List.replicate 299 'x', 1⟩)
        tracelog_init = some t ∧
      count_invariant t ∧
      DUMP_BUFFSZ ≤ (layout ['p'] (chain_frames t.top)).length ∧
      ((Tracy_dump ['p'] t).buffs.getLast?).map List.length = some 3859 ∧
      (Tracy_dump ['p'] t).sink = none :=
  ⟨_, rfl, by decide!, by decide!, by decide!, by decide!⟩

/-! ## Safety of the dump buffer -/

theorem Tracy_dump_loop_buffs (count : Nat) :
    ∀ (top : trace_frame_ptr) (buff : List Char), buff.length ≤ DUMP_BUFFSZ - 1 →
      (∀ b ∈ (Tracy_dump_loop count top buff).buffs, b.length ≤ DUMP_BUFFSZ - 1) ∧
        List.Chain (fun a b => a <+: b) buff (Tracy_dump_loop count top buff).buffs := by
  induction count with
  | zero =>
    intro top buff _
    simp [Tracy_dump_loop]
  | succ count ih =>
    intro top buff hlen
    cases top with
    | NULL => simp [Tracy_dump_loop]
    | frame prev f s l =>
      have hle := strappend_length_le buff
        (snprintf DUMP_BUFFSZ (dump_frame_line (count + 1) f s l)) DUMP_BUFFSZ hlen
      have hpre := strappend_extends buff
        (snprintf DUMP_BUFFSZ (dump_frame_line (count + 1) f s l)) DUMP_BUFFSZ
      simp only [Tracy_dump_loop]
      rcases hres : strappend buff DUMP_BUFFSZ
        (snprintf DUMP_BUFFSZ (dump_frame_line (count + 1) f s l)) with ⟨buff1, ok⟩
      rw [hres] at hle hpre
      simp only at hle hpre
      obtain ⟨h1, h2⟩ := ih prev buff1 hle
      cases ok with
      | false =>
        simp only [List.mem_singleton, forall_eq, List.chain_cons, List.Chain.nil, and_true]
        exact ⟨hle, hpre⟩
      | true =>
        simp only [List.mem_cons, forall_eq_or_imp, List.chain_cons]
        exact ⟨⟨hle, h1⟩, hpre, h2⟩

/-- C10. Truncation safety: for every stack and program name, every content
the dump buffer takes during `Tracy_dump` (as initialised and after each call
of `strappend`) is at most 4095 chars long, and each content is a prefix of
the next; `strappend` returns false exactly when
`strlen(src) + strlen(buff) >= buffsz`, it then leaves the buffer unchanged,
and when it returns true the new content is the old one followed by `src`. -/
theorem Tracy_dump_buffer_safe (PROG_NAME : List Char) (t : stack_trace) :
    (∀ b ∈ (Tracy_dump PROG_NAME t).buffs, b.length ≤ 4095) ∧
      List.Chain' (fun a b => a <+: b) (Tracy_dump PROG_NAME t).buffs ∧
      (∀ (buff src : List Char) (buffsz : Nat),
        ((strappend buff buffsz src).2 = false ↔ buffsz ≤ src.length + buff.length) ∧
        ((strappend buff buffsz src).2 = false → (strappend buff buffsz src).1 = buff) ∧
        ((strappend buff buffsz src).2 = true → (strappend buff buffsz src).1 = buff ++ src)) := by
  have hstr : ∀ (buff src : List Char) (buffsz : Nat),
      ((strappend buff buffsz src).2 = false ↔ buffsz ≤ src.length + buff.length) ∧
      ((strappend buff buffsz src).2 = false → (strappend buff buffsz src).1 = buff) ∧
      ((strappend buff buffsz src).2 = true → (strappend buff buffsz src).1 = buff ++ src) := by
    intro buff src buffsz
    by_cases hfit : src.length + buff.length < buffsz
    · rw [strappend_fits hfit]
      simp only [Bool.true_eq_false, false_iff, not_le, false_implies, true_implies, and_true]
      exact hfit
    · rw [strappend_full (Nat.le_of_not_lt hfit)]
      simp only [true_iff, true_implies, Bool.false_eq_true, false_implies, and_true]
      exact Nat.le_of_not_lt hfit
  have e1 : strappend [] DUMP_BUFFSZ dump_delimiter = (dump_delimiter, true) := by decide
  have hd : dump_delimiter.length ≤ DUMP_BUFFSZ - 1 := by decide
  have h0 : ([] : List Char) <+: dump_delimiter := ⟨dump_delimiter, rfl⟩
  have hbound : (4095 : Nat) = DUMP_BUFFSZ - 1 := rfl
  rw [hbound]
  refine ⟨?_, ?_, hstr⟩
  all_goals
    unfold Tracy_dump
    simp only [e1]
    split
    · have hle2 := strappend_length_le dump_delimiter
        (snprintf 4096 (dump_title PROG_NAME)) DUMP_BUFFSZ hd
      have hpre2 := strappend_extends dump_delimiter
        (snprintf 4096 (dump_title PROG_NAME)) DUMP_BUFFSZ
      rcases hres : strappend dump_delimiter DUMP_BUFFSZ
        (snprintf 4096 (dump_title PROG_NAME)) with ⟨buff2, ok⟩
      rw [hres] at hle2 hpre2
      simp only at hle2 hpre2
      cases ok with
      | false =>
        simp only [List.mem_cons, List.mem_singleton, forall_eq_or_imp, forall_eq,
          List.length_nil, Nat.zero_le, true_and, List.chain'_cons, List.chain'_singleton,
          and_true, List.not_mem_nil, false_implies, implies_true]
        first
          | exact ⟨hd, hle2⟩
          | exact ⟨h0, hpre2⟩
      | true =>
        have hle3 := strappend_length_le buff2 dump_delimiter DUMP_BUFFSZ hle2
        have hpre3 := strappend_extends buff2 dump_delimiter DUMP_BUFFSZ
        have hle4 := strappend_length_le (strappend buff2 DUMP_BUFFSZ dump_delimiter).1
          "  ^\n".toList DUMP_BUFFSZ hle3
        have hpre4 := strappend_extends (strappend buff2 DUMP_BUFFSZ dump_delimiter).1
          "  ^\n".toList DUMP_BUFFSZ
        obtain ⟨h1, h2⟩ := Tracy_dump_loop_buffs (uint32_of_size t.count) t.top
          (strappend (strappend buff2 DUMP_BUFFSZ dump_delimiter).1 DUMP_BUFFSZ
            "  ^\n".toList).1 hle4
        simp only [List.mem_cons, forall_eq_or_imp, List.length_nil, Nat.zero_le, true_and,
          List.chain'_cons]
        first
          | exact ⟨hd, hle2, hle3, hle4, h1⟩
          | exact ⟨h0, hpre2, hpre3, hpre4, h2⟩
    · simp

/-! ## Warning on overflow -/

/-- C11. On every stack that satisfies the count/chain invariant with fewer
than `2 ^ 32` frames, under a program name that fits `PROG_NAME`, when the
full rendering does not fit the buffer `Tracy_dump` stops at a frame line and
emits no warning: nothing is written by `puts`, in particular not the text of
the two header branches, and nothing is passed to the sink. -/
theorem Tracy_dump_overflow_no_warning (PROG_NAME : List Char) (t : stack_trace)
    (hprog : PROG_NAME.length < PROG_NAME_BUFFSZ) (hinv : count_invariant t)
    (hc : t.count < 2 ^ 32)
    (hover : DUMP_BUFFSZ ≤ (layout PROG_NAME (chain_frames t.top)).length) :
    dump_no_room ∉ (Tracy_dump PROG_NAME t).stdout ∧ (Tracy_dump PROG_NAME t).stdout = [] ∧
      (Tracy_dump PROG_NAME t).sink = none := by
  obtain ⟨h1, _, h3⟩ := Tracy_dump_of_overflow PROG_NAME t hprog hinv hc hover
  rw [h3]
  exact ⟨List.not_mem_nil _, rfl, h1⟩

/-- Witness of C11: nine frames with names of 299 chars. -/
theorem Tracy_dump_overflow_no_warning_witness :
    dump_no_room ∉ (Tracy_dump ['t']
        { count := 9,
          top := chain_of (List.replicate 9
            ⟨List.replicate 299 'g', List.replicate 299 'h', 7⟩) }).stdout ∧
      (Tracy_dump ['t']
        { count := 9,
          top := chain_of (List.replicate 9
            ⟨List.replicate 299 'g', List.replicate 299 'h', 7⟩) }).stdout = [] ∧
      (Tracy_dump ['t']
        { count := 9,
          top := chain_of (List.replicate 9
            ⟨List.replicate 299 'g', List.replicate 299 'h', 7⟩) }).sink = none :=
  Tracy_dump_overflow_no_warning ['t']
    { count := 9,
      top := chain_of (List.replicate 9 ⟨List.replicate 299 'g', List.replicate 299 'h', 7⟩) }
    (by decide) (by decide!) (by decide) (by decide!)

/-! ## Sink selection -/

/-- C12. Sink selection: for every environment, `__Tracy_log` after
`Tracy_init` writes to the sink the configuration asks for: the system log
when `TRACY_USE_SYSLOG` is set, whatever `TRACY_USE_LOG_FILE` is; else the file
when `TRACY_USE_LOG_FILE` is set, at the value of `TRACY_LOG_FILE` when that is
set and at `/tmp/tracy.log` otherwise; else standard output. When the file
sink is not selected, `Tracy_init` gives the same result whatever
`TRACY_LOG_FILE` is. -/
theorem Tracy_init_sink (getenv : environment) (base_name text : List Char) :
    (__Tracy_log (Tracy_init getenv base_name tracy_globals_init).1 text).1
        = selected_sink (getenv TRACY_SYSLOG_ENV_VAR).isSome
            (getenv TRACY_USE_LOGF_ENV_VAR).isSome (getenv TRACY_LOGF_NAME_ENV_VAR) ∧
      (__Tracy_log (Tracy_init getenv base_name tracy_globals_init).1 text).2 = text ∧
      ∀ getenv2 : environment,
        (∀ name, name ≠ TRACY_LOGF_NAME_ENV_VAR → getenv2 name = getenv name) →
        ((getenv TRACY_SYSLOG_ENV_VAR).isSome = true ∨
          (getenv TRACY_USE_LOGF_ENV_VAR).isSome = false) →
        Tracy_init getenv2 base_name tracy_globals_init
          = Tracy_init getenv base_name tracy_globals_init := by
  refine ⟨?_, ?_, ?_⟩
  · rcases h1 : getenv TRACY_SYSLOG_ENV_VAR with _ | a <;>
      rcases h2 : getenv TRACY_USE_LOGF_ENV_VAR with _ | b <;>
      rcases h3 : getenv TRACY_LOGF_NAME_ENV_VAR with _ | c <;>
      simp [Tracy_init, __Tracy_log, selected_sink, __Tracy_get_progname, tracy_globals_init,
        TRACY_DEFAULT_LOG_PATH, h1, h2, h3]
  · unfold __Tracy_log
    split_ifs <;> rfl
  · intro getenv2 hsame hsel
    have e1 : getenv2 TRACY_SYSLOG_ENV_VAR = getenv TRACY_SYSLOG_ENV_VAR :=
      hsame _ (by decide)
    have e2 : getenv2 TRACY_USE_LOGF_ENV_VAR = getenv TRACY_USE_LOGF_ENV_VAR :=
      hsame _ (by decide)
    unfold Tracy_init
    rw [e1, e2]
    rcases hsel with h | h
    · simp only [h, if_true]
    · rcases h1 : (getenv TRACY_SYSLOG_ENV_VAR).isSome with _ | _ <;>
        simp [h]

/-! ## The fields of a pushed frame -/

theorem int32_of_uint32_of_int (l : Int) (hlo : -2 ^ 31 ≤ l) (hhi : l < 2 ^ 31) :
    int32_of_nat (uint32_of_int l) = l := by
  unfold int32_of_nat uint32_of_int
  have hmod : ((l % 2 ^ 32).toNat) % 2 ^ 32 = (l % 2 ^ 32).toNat := by
    apply Nat.mod_eq_of_lt
    omega
  rw [hmod]
  split_ifs with h <;> omega

/-- C13. Frame field bounds: for every stack and all arguments of
`Tracy_push` (the line number an `int`), the call succeeds and the new top
frame holds the function name and the source file cut to their first 299
chars, each unchanged when not longer than 299, and a line number with the
bits of the one given (the same number when that is not negative); the new
frame's `prev` is the old top, whole and unchanged. -/
theorem Tracy_push_stores (t : stack_trace) (source_file func_name : List Char) (line_num : Int)
    (hline : -2 ^ 31 ≤ line_num ∧ line_num < 2 ^ 31) :
    ∃ (stored_func stored_file : List Char) (stored_line : Nat),
      Tracy_push t source_file func_name line_num
        = some { count := (t.count + 1) % 2 ^ 64,
                 top := trace_frame_ptr.frame t.top stored_func stored_file stored_line } ∧
      stored_func = func_name.take 299 ∧ stored_file = source_file.take 299 ∧
      (func_name.length ≤ 299 → stored_func = func_name) ∧
      (source_file.length ≤ 299 → stored_file = source_file) ∧
      int32_of_nat stored_line = line_num ∧
      (0 ≤ line_num → (stored_line : Int) = line_num) ∧
      chain_frames (trace_frame_ptr.frame t.top stored_func stored_file stored_line)
        = { func_name := stored_func, source_file := stored_file, line_num := stored_line }
            :: chain_frames t.top := by
  refine ⟨snprintf TEST_NAME_BUFFSZ func_name, snprintf SRCF_NAME_BUFFSZ source_file,
    uint32_of_int line_num, Tracy_push_eq t source_file func_name line_num, rfl, rfl, ?_, ?_,
    int32_of_uint32_of_int line_num hline.1 hline.2, ?_, rfl⟩
  · intro h
    exact snprintf_short (by simp only [TEST_NAME_BUFFSZ]; omega)
  · intro h
    exact snprintf_short (by simp only [SRCF_NAME_BUFFSZ]; omega)
  · intro h
    unfold uint32_of_int
    omega

/-- Witness of C13: a push of a name of 400 chars on a stack of one frame. -/
theorem Tracy_push_stores_witness :
    ∃ (stored_func stored_file : List Char) (stored_line : Nat),
      Tracy_push
          { count := 1, top := trace_frame_ptr.frame trace_frame_ptr.NULL ['m'] ['a'] 3 }
          ['b', '.', 'c'] (List.replicate 400 'n') 42
        = some { count := (1 + 1) % 2 ^ 64,
                 top := trace_frame_ptr.frame
                   (trace_frame_ptr.frame trace_frame_ptr.NULL ['m'] ['a'] 3)
                   stored_func stored_file stored_line } ∧
      stored_func = (List.replicate 400 'n').take 299 ∧ stored_file = ['b', '.', 'c'].take 299 ∧
      ((List.replicate 400 'n').length ≤ 299 → stored_func = List.replicate 400 'n') ∧
      (['b', '.', 'c'].length ≤ 299 → stored_file = ['b', '.', 'c']) ∧
      int32_of_nat stored_line = 42 ∧
      (0 ≤ (42 : Int) → (stored_line : Int) = 42) ∧
      chain_frames (trace_frame_ptr.frame
          (trace_frame_ptr.frame trace_frame_ptr.NULL ['m'] ['a'] 3)
          stored_func stored_file stored_line)
        = { func_name := stored_func, source_file := stored_file, line_num := stored_line }
            :: chain_frames (trace_frame_ptr.frame trace_frame_ptr.NULL ['m'] ['a'] 3) :=
  Tracy_push_stores
    { count := 1, top := trace_frame_ptr.frame trace_frame_ptr.NULL ['m'] ['a'] 3 }
    ['b', '.', 'c'] (List.replicate 400 'n') 42 (by decide)

/-! ## Push then pop -/

/-- The body of `Tracy_pop` after the body of `Tracy_push` gives back the
stack, when the count has room. -/
theorem Tracy_pop_body_after_push (s : stack_trace) (source_file func_name : List Char)
    (line_num : Int) (hroom : s.count + 1 < 2 ^ 64) :
    (Tracy_push s source_file func_name line_num).bind Tracy_pop_body = some s := by
  rw [Tracy_push_eq, Option.some_bind, Nat.mod_eq_of_lt hroom]
  simp [Tracy_pop_body]

/-- C16. Push then pop is not the identity on the program: for every stack
state whose count is below the largest `size_t` and all push arguments,
entered with the mutex free, `Tracy_push` returns with the mutex free and
`Tracy_pop` after it puts the stack back as it was (same count, same top, same
chain) and then waits in the `pthread_mutex_lock` of line 152: the call of
`Tracy_pop` in `TRETURN` never returns. -/
theorem Tracy_pop_after_push_blocks (s : stack_trace) (a : push_args)
    (hroom : s.count + 1 < 2 ^ 64) :
    run_calls [stack_call.push a, stack_call.pop] mutex_state.unlocked s
      = call_result.blocked s := by
  have hbody := Tracy_pop_body_after_push s a.source_file a.func_name a.line_num hroom
  rw [Tracy_push_eq, Option.some_bind] at hbody
  simp only [run_calls, stack_call.run, Tracy_push_call_unlocked, Tracy_pop_unlocked _ _ hbody]

/-- Witness of C16: a push and a pop on a stack of one frame. -/
theorem Tracy_pop_after_push_blocks_witness :
    run_calls [stack_call.push ⟨['b', '.', 'c'], ['g'], 12⟩, stack_call.pop]
        mutex_state.unlocked
        { count := 1, top := trace_frame_ptr.frame trace_frame_ptr.NULL ['m'] ['a'] 3 }
      = call_result.blocked
        { count := 1, top := trace_frame_ptr.frame trace_frame_ptr.NULL ['m'] ['a'] 3 } :=
  Tracy_pop_after_push_blocks
    { count := 1, top := trace_frame_ptr.frame trace_frame_ptr.NULL ['m'] ['a'] 3 }
    ⟨['b', '.', 'c'], ['g'], 12⟩ (by decide)

/-! ## Schedules of pushes and pops -/

/-- C15. Concurrent push/pop fails in the code, already for one thread: in
every schedule of calls of `Tracy_push` and `Tracy_pop` on the empty stack,
the calls before the first pop are pushes; the first pop runs its body and
then waits in the `pthread_mutex_lock` of line 152 with the mutex held, so no
later call of any thread is made and the count stays one below the number of
pushes made so far. With P pushes and P pops per thread and P at least 2 the
count is never 0. -/
theorem schedule_blocks_at_first_pop (pushes : List push_args) (later : List stack_call)
    (hN : pushes.length < 2 ^ 64) (hP : 2 ≤ pushes.length) :
    ∃ t, run_calls (pushes.map stack_call.push ++ stack_call.pop :: later)
        mutex_state.unlocked tracelog_init = call_result.blocked t ∧
      t.count = pushes.length - 1 ∧ t.count ≠ 0 := by
  obtain ⟨t, hrun, hcount⟩ := run_calls_pushes_pop pushes later hN
  exact ⟨t, hrun, hcount, by omega⟩

/-- Witness of C15: two threads, two pushes and two pops each, the four
pushes scheduled first. -/
theorem schedule_blocks_at_first_pop_witness :
    ∃ t, run_calls
        (([⟨['a'], ['f'], 1⟩, ⟨['b'], ['g'], 2⟩, ⟨['a'], ['f'], 3⟩, ⟨['b'], ['g'], 4⟩] :
            List push_args).map stack_call.push
          ++ stack_call.pop :: [stack_call.pop, stack_call.pop, stack_call.pop])
        mutex_state.unlocked tracelog_init = call_result.blocked t ∧
      t.count = 4 - 1 ∧ t.count ≠ 0 :=
  schedule_blocks_at_first_pop
    [⟨['a'], ['f'], 1⟩, ⟨['b'], ['g'], 2⟩, ⟨['a'], ['f'], 3⟩, ⟨['b'], ['g'], 4⟩]
    [stack_call.pop, stack_call.pop, stack_call.pop] (by decide) (by decide)

/-! ## Lock discipline -/

theorem public_call_mtx_unlocked (c : public_call) :
    c.mtx mutex_state.unlocked = if c.releases then some mutex_state.unlocked else none := by
  cases c with
  | init => rfl
  | push => rfl
  | pop => rfl
  | destroy => rfl
  | dump PROG_NAME t =>
    simp only [public_call.mtx, public_call.releases, Tracy_dump_mtx]
    by_cases hf : (Tracy_dump PROG_NAME t).fault = true
    · simp [hf, pthread_mutex_lock]
    · by_cases h : (Tracy_dump PROG_NAME t).sink.isSome = true
      · simp [hf, h, pthread_mutex_lock, __Tracy_log_mtx]
      · simp [hf, h, pthread_mutex_lock, pthread_mutex_unlock]

theorem run_mtx_unlocked (calls : List public_call) :
    run_mtx calls mutex_state.unlocked
      = if calls.all public_call.releases then some mutex_state.unlocked else none := by
  induction calls with
  | nil => rfl
  | cons c rest ih =>
    simp only [run_mtx, public_call_mtx_unlocked, List.all_cons]
    by_cases h : c.releases = true
    · simp [h, ih]
    · simp [h]

/-- C14. Lock discipline fails in the code: entered with the mutex free,
`Tracy_init`, `Tracy_pop` and `Tracy_destroy` each call `pthread_mutex_lock` a
second time on the mutex they hold and do not return; `__Tracy_log` is entered
by `Tracy_dump` with the mutex held and locks it again, so a dump that reaches
the sink write does not return either; only `Tracy_push`, and a dump that
leaves before the sink write without a fault, return with the mutex free. A
sequence of public calls runs to completion only when every call in it is of
these two kinds; a push followed by a pop does not. -/
theorem mutex_discipline_broken :
    Tracy_init_mtx mutex_state.unlocked = none ∧
      Tracy_pop_mtx mutex_state.unlocked = none ∧
      Tracy_destroy_mtx mutex_state.unlocked = none ∧
      __Tracy_log_mtx mutex_state.locked = none ∧
      Tracy_push_mtx mutex_state.unlocked = some mutex_state.unlocked ∧
      (∀ (PROG_NAME : List Char) (t : stack_trace),
        (Tracy_dump PROG_NAME t).sink.isSome = true →
          Tracy_dump_mtx PROG_NAME t mutex_state.unlocked = none) ∧
      (∀ (PROG_NAME : List Char) (t : stack_trace),
        (Tracy_dump PROG_NAME t).sink = none → (Tracy_dump PROG_NAME t).fault = false →
          Tracy_dump_mtx PROG_NAME t mutex_state.unlocked = some mutex_state.unlocked) ∧
      (∀ calls : List public_call,
        run_mtx calls mutex_state.unlocked
          = if calls.all public_call.releases then some mutex_state.unlocked else none) ∧
      run_mtx [public_call.push, public_call.pop] mutex_state.unlocked = none := by
  refine ⟨rfl, rfl, rfl, rfl, rfl, ?_, ?_, run_mtx_unlocked, rfl⟩
  · intro PROG_NAME t h
    have hc := public_call_mtx_unlocked (public_call.dump PROG_NAME t)
    simp only [public_call.mtx, public_call.releases, h, Bool.not_true, Bool.and_false,
      Bool.false_eq_true, if_false] at hc
    exact hc
  · intro PROG_NAME t h hf
    have hc := public_call_mtx_unlocked (public_call.dump PROG_NAME t)
    simp only [public_call.mtx, public_call.releases, h, hf, Option.isSome_none, Bool.not_false,
      Bool.and_self, if_true] at hc
    exact hc

/-! ## The dump leaves the stack alone -/

theorem Tracy_dump_loop_exec_eq (count : Nat) :
    ∀ (top : trace_frame_ptr) (buff : List Char) (tracelog : stack_trace),
      Tracy_dump_loop_exec count top buff tracelog = (tracelog, Tracy_dump_loop count top buff) := by
  induction count with
  | zero => intro top buff tracelog; rfl
  | succ count ih =>
    intro top buff tracelog
    cases top with
    | NULL => rfl
    | frame prev f s l =>
      simp only [Tracy_dump_loop_exec, Tracy_dump_loop]
      rcases strappend buff DUMP_BUFFSZ
        (snprintf DUMP_BUFFSZ (dump_frame_line (count + 1) f s l)) with ⟨buff1, ok⟩
      cases ok with
      | false => rfl
      | true => simp only [ih]

/-- C19. `Tracy_dump` does not change the stack: with the global `tracelog`
passed through the whole call, the global after the call is the one before it
(same count, same top, same frames with the same fields and `prev` links), for
every stack state and program name, and what the call writes is what
`Tracy_dump` computes from that state. -/
theorem Tracy_dump_keeps_stack (PROG_NAME : List Char) (tracelog : stack_trace) :
    (Tracy_dump_exec PROG_NAME tracelog).1 = tracelog ∧
      (Tracy_dump_exec PROG_NAME tracelog).1.count = tracelog.count ∧
      (Tracy_dump_exec PROG_NAME tracelog).1.top = tracelog.top ∧
      chain_frames (Tracy_dump_exec PROG_NAME tracelog).1.top = chain_frames tracelog.top ∧
      (Tracy_dump_exec PROG_NAME tracelog).2 = Tracy_dump PROG_NAME tracelog := by
  have h : Tracy_dump_exec PROG_NAME tracelog = (tracelog, Tracy_dump PROG_NAME tracelog) := by
    unfold Tracy_dump_exec Tracy_dump
    simp only [Tracy_dump_loop_exec_eq]
    split
    · rcases strappend [] DUMP_BUFFSZ dump_delimiter with ⟨buff1, ok1⟩
      cases ok1 with
      | false => rfl
      | true =>
        simp only
        rcases strappend buff1 DUMP_BUFFSZ (snprintf 4096 (dump_title PROG_NAME))
          with ⟨buff2, ok2⟩
        cases ok2 <;> rfl
    · rfl
  rw [h]
  exact ⟨rfl, rfl, rfl, rfl, rfl⟩

/-! ## Capacity of the dump buffer -/

theorem toDigits_length_le_ten (n : Nat) (h : n < 10 ^ 10) : (Nat.toDigits 10 n).length ≤ 10 :=
  Nat.toDigitsCore_length 10 (by decide) (n + 1) n 10 h (by decide)

theorem int32_of_nat_range (n : Nat) : -2 ^ 31 ≤ int32_of_nat n ∧ int32_of_nat n < 2 ^ 31 := by
  unfold int32_of_nat
  split_ifs with h <;> omega

theorem printf_i_int32_length (n : Nat) : (printf_i (int32_of_nat n)).length ≤ 11 := by
  obtain ⟨hlo, hhi⟩ := int32_of_nat_range n
  unfold printf_i
  split_ifs with h
  · have := toDigits_length_le_ten (int32_of_nat n).natAbs (by omega)
    simp only [List.length_cons]
    omega
  · have := toDigits_length_le_ten (int32_of_nat n).toNat (by omega)
    omega

theorem layout_frame_line_length_le (depth : Nat) (hd : depth < 10 ^ 10) (fr : frame_fields)
    (hfits : fr.fits) : (layout_frame_line depth fr).length ≤ 636 := by
  have h1 : "  | ".toList.length = 4 := by decide
  have h2 : " *** ".toList.length = 5 := by decide
  have h3 : "(), ".toList.length = 4 := by decide
  have h4 : ": L".toList.length = 3 := by decide
  have hdepth : (toString depth).toList.length ≤ 10 := toDigits_length_le_ten depth hd
  have hline := printf_i_int32_length fr.line_num
  rw [printf_i_eq_toString] at hline
  obtain ⟨hf, hs⟩ := hfits
  simp only [TEST_NAME_BUFFSZ, SRCF_NAME_BUFFSZ] at hf hs
  unfold layout_frame_line
  simp only [List.length_append, List.length_replicate, List.length_cons, List.length_nil,
    h1, h2, h3, h4]
  omega

theorem layout_lines_length_le (frames : List frame_fields) :
    ∀ depth, depth < 10 ^ 10 → (∀ fr ∈ frames, fr.fits) →
      (∀ line ∈ layout_lines depth frames, line.length ≤ 636) ∧
        (layout_lines depth frames).flatten.length ≤ 636 * frames.length := by
  induction frames with
  | nil => intro depth _ _; simp [layout_lines]
  | cons fr rest ih =>
    intro depth hd hfits
    have hfr := layout_frame_line_length_le depth hd fr (hfits fr (List.mem_cons_self _ _))
    obtain ⟨h1, h2⟩ := ih (depth - 1) (by omega)
      (fun fr1 hmem => hfits fr1 (List.mem_cons_of_mem _ hmem))
    refine ⟨?_, ?_⟩
    · intro line hmem
      simp only [layout_lines, List.mem_cons] at hmem
      rcases hmem with rfl | hmem
      · exact hfr
      · exact h1 line hmem
    · simp only [layout_lines, List.flatten_cons, List.length_append, List.length_cons]
      omega

theorem Tracy_dump_loop_stdout (count : Nat) :
    ∀ (top : trace_frame_ptr) (buff : List Char), (Tracy_dump_loop count top buff).stdout = [] := by
  induction count with
  | zero => intro top buff; rfl
  | succ count ih =>
    intro top buff
    cases top with
    | NULL => rfl
    | frame prev f s l =>
      simp only [Tracy_dump_loop]
      rcases strappend buff DUMP_BUFFSZ
        (snprintf DUMP_BUFFSZ (dump_frame_line (count + 1) f s l)) with ⟨buff1, ok⟩
      cases ok with
      | false => rfl
      | true => exact ih prev buff1

/-- Under a program name that fits `PROG_NAME`, `Tracy_dump` writes nothing by
`puts`, whatever the stack. -/
theorem Tracy_dump_stdout_nil (PROG_NAME : List Char) (t : stack_trace)
    (hprog : PROG_NAME.length < PROG_NAME_BUFFSZ) : (Tracy_dump PROG_NAME t).stdout = [] := by
  simp only [PROG_NAME_BUFFSZ] at hprog
  by_cases h0 : uint32_of_size t.count = 0
  · simp [Tracy_dump, h0]
  · rw [Tracy_dump_header PROG_NAME t h0 (by simp only [DUMP_BUFFSZ]; omega)]
    exact Tracy_dump_loop_stdout _ _ _

theorem Tracy_get_progname_length (base_name : List Char) (g : tracy_globals) :
    (__Tracy_get_progname base_name g).PROG_NAME.length < PROG_NAME_BUFFSZ := by
  simp only [__Tracy_get_progname, snprintf_length, PROG_NAME_BUFFSZ]
  omega

/-- C18. The header always fits: for every name `__Tracy_get_progname` stores
(at most 128 chars), the four header lines take at most 230 bytes, each of the
four header calls of `strappend` in `Tracy_dump` returns true, and for every
stack `Tracy_dump` writes nothing by `puts`: the two branches that write
`not enough room for stacktrace log dump` are not taken. -/
theorem Tracy_dump_header_fits (base_name : List Char) (g : tracy_globals) (t : stack_trace) :
    (__Tracy_get_progname base_name g).PROG_NAME.length ≤ 128 ∧
      (layout_header (__Tracy_get_progname base_name g).PROG_NAME).length ≤ 230 ∧
      strappend [] DUMP_BUFFSZ dump_delimiter = (dump_delimiter, true) ∧
      strappend dump_delimiter DUMP_BUFFSZ
          (snprintf 4096 (dump_title (__Tracy_get_progname base_name g).PROG_NAME))
        = (dump_delimiter ++ dump_title (__Tracy_get_progname base_name g).PROG_NAME, true) ∧
      strappend (dump_delimiter ++ dump_title (__Tracy_get_progname base_name g).PROG_NAME)
          DUMP_BUFFSZ dump_delimiter
        = (dump_delimiter ++ dump_title (__Tracy_get_progname base_name g).PROG_NAME
            ++ dump_delimiter, true) ∧
      strappend (dump_delimiter ++ dump_title (__Tracy_get_progname base_name g).PROG_NAME
            ++ dump_delimiter) DUMP_BUFFSZ "  ^\n".toList
        = (layout_header (__Tracy_get_progname base_name g).PROG_NAME, true) ∧
      (Tracy_dump (__Tracy_get_progname base_name g).PROG_NAME t).stdout = [] ∧
      dump_no_room ∉ (Tracy_dump (__Tracy_get_progname base_name g).PROG_NAME t).stdout := by
  have hprog := Tracy_get_progname_length base_name g
  have hout := Tracy_dump_stdout_nil _ t hprog
  generalize (__Tracy_get_progname base_name g).PROG_NAME = PROG_NAME at hprog hout ⊢
  simp only [PROG_NAME_BUFFSZ] at hprog
  have hd := dump_delimiter_length
  have ht := dump_title_length PROG_NAME
  have hh := layout_header_length PROG_NAME
  have h4 : "  ^\n".toList.length = 4 := by decide
  have e2 : snprintf 4096 (dump_title PROG_NAME) = dump_title PROG_NAME :=
    snprintf_short (by omega)
  refine ⟨by omega, by omega, by decide, ?_, ?_, ?_, hout, ?_⟩
  · rw [e2]
    exact strappend_fits (by simp only [DUMP_BUFFSZ]; omega)
  · exact strappend_fits (by simp only [DUMP_BUFFSZ, List.length_append]; omega)
  · rw [← dump_header_eq_layout]
    exact strappend_fits (by simp only [DUMP_BUFFSZ, List.length_append]; omega)
  · rw [hout]
    exact List.not_mem_nil _

end Tracy
